import Mathlib

/-!
Verification of the asset depreciation schedule engine
(`erpnext/assets/doctype/asset_depreciation_schedule/asset_depreciation_schedule.py`).

The engine is embedded shallowly:

* currency/floating values are exact rationals (`ℚ`); `frappe.utils.flt`
  with a precision is modelled as round-to-nearest at that many decimal
  places, and `flt` without a precision is the identity;
* dates are proleptic-Gregorian triples with the day-clamping month
  arithmetic of `dateutil.relativedelta` (the date helpers are imported
  from `frappe.utils`, whose sources are not part of this tree; they are
  modelled from the spec, section 4.1, and the standard calendar);
* Frappe documents become plain records, child tables become lists, and
  database/persistence calls (`db_update`, `frappe.db.exists`) become
  explicit parameters.
-/

namespace AssetDepr

attribute [local semireducible] Rat.add Rat.mul Rat.inv Rat.sub Rat.ofScientific

/-- A proleptic Gregorian calendar date (year, month 1..12, day). -/
structure Date where
  y : Int
  m : Int
  d : Int
deriving DecidableEq, Repr

/-- Modelled from the spec: Gregorian leap-year rule used by the
`frappe.utils` date helpers. -/
def isLeap (y : Int) : Bool :=
  y % 4 == 0 && (y % 100 != 0 || y % 400 == 0)

/-- Modelled from the spec: number of days in a Gregorian month. -/
def daysInMonth (y m : Int) : Int :=
  if m = 2 then (if isLeap y then 29 else 28)
  else if m = 4 ∨ m = 6 ∨ m = 9 ∨ m = 11 then 30
  else 31

/-- Modelled from the spec: `frappe.utils.get_last_day` — the last day of
the month of the given date. -/
def get_last_day (dt : Date) : Date :=
  ⟨dt.y, dt.m, daysInMonth dt.y dt.m⟩

/-- Modelled from the spec: `frappe.utils.get_first_day`. -/
def get_first_day (dt : Date) : Date :=
  ⟨dt.y, dt.m, 1⟩

/-- Modelled from the spec: `frappe.utils.is_last_day_of_the_month`. -/
def is_last_day_of_the_month (dt : Date) : Bool :=
  dt.d == daysInMonth dt.y dt.m

/-- Modelled from the spec: `frappe.utils.add_months` — month arithmetic
with `dateutil` day clamping (the day is clamped to the length of the
target month). -/
def add_months (dt : Date) (k : Int) : Date :=
  let t := dt.y * 12 + (dt.m - 1) + k
  let y := t.fdiv 12
  let m := t.emod 12 + 1
  ⟨y, m, min dt.d (daysInMonth y m)⟩

/-- Modelled from the spec: rata-die day number of a date (days since
0000-03-01), the standard civil-from-days correspondence. -/
def toOrdinal (dt : Date) : Int :=
  let y := if dt.m ≤ 2 then dt.y - 1 else dt.y
  let era := y.fdiv 400
  let yoe := y - era * 400
  let mp := (dt.m + 9).emod 12
  let doy := (153 * mp + 2).fdiv 5 + dt.d - 1
  let doe := yoe * 365 + yoe.fdiv 4 - yoe.fdiv 100 + doy
  era * 146097 + doe

/-- Modelled from the spec: inverse of `toOrdinal`. -/
def fromOrdinal (z : Int) : Date :=
  let era := z.fdiv 146097
  let doe := z - era * 146097
  let yoe := (doe - doe.fdiv 1460 + doe.fdiv 36524 - doe.fdiv 146096).fdiv 365
  let y := yoe + era * 400
  let doy := doe - (365 * yoe + yoe.fdiv 4 - yoe.fdiv 100)
  let mp := (5 * doy + 2).fdiv 153
  let d := doy - (153 * mp + 2).fdiv 5 + 1
  let m := mp + (if mp < 10 then 3 else -9)
  ⟨if m ≤ 2 then y + 1 else y, m, d⟩

/-- Modelled from the spec: `frappe.utils.date_diff` — signed number of
days from the second date to the first. -/
def date_diff (a b : Date) : Int :=
  toOrdinal a - toOrdinal b

/-- Modelled from the spec: `frappe.utils.add_days`. -/
def add_days (dt : Date) (k : Int) : Date :=
  fromOrdinal (toOrdinal dt + k)

/-- Modelled from the spec: `frappe.utils.month_diff` — one-based count of
calendar months from the second date to the first. -/
def month_diff (a b : Date) : Int :=
  (a.y - b.y) * 12 + a.m - b.m + 1

/-- Modelled from the spec: `frappe.utils.flt` with a precision — round
the rational to `p` decimal places (round to nearest; the developments
below never sit on a tie). `flt` without a precision is the identity on
our exact rationals. -/
def fltp (p : ℕ) (x : ℚ) : ℚ :=
  ((round (x * (10 : ℚ) ^ p) : ℤ) : ℚ) / (10 : ℚ) ^ p

/-- One child-table row of the depreciation schedule
(doctype `Depreciation Schedule`). -/
structure DeprScheduleRow where
  schedule_date : Date
  depreciation_amount : ℚ
  accumulated_depreciation_amount : ℚ
  journal_entry : Option String
deriving DecidableEq, Repr

/-- Fallback row for list accesses that cannot fail on the guarded paths
(Python would raise `IndexError` there). -/
def defaultRow : DeprScheduleRow :=
  ⟨⟨1900, 1, 1⟩, 0, 0, none⟩

/-- The mutually-exclusive regeneration-reason flags carried on the asset
(`asset_doc.flags`). -/
structure AssetFlags where
  increase_in_asset_life : Bool
  increase_in_asset_value_due_to_repair : Bool
  decrease_in_asset_value_due_to_value_adjustment : Bool
deriving DecidableEq, Repr

/-- The asset snapshot fields read by the schedule engine.  `precision` is
`asset_doc.precision("gross_purchase_amount")`. -/
structure Asset where
  gross_purchase_amount : ℚ
  opening_accumulated_depreciation : ℚ
  number_of_depreciations_booked : Int
  available_for_use_date : Option Date
  to_date : Date
  docstatus : Int
  precision : ℕ
  flags : AssetFlags
deriving DecidableEq, Repr

/-- The available-for-use date, on paths where the caller has already
checked it is set (Python would use the raw attribute there). -/
def Asset.availDate (a : Asset) : Date :=
  a.available_for_use_date.getD ⟨1900, 1, 1⟩

/-- One `Asset Finance Book` policy row. -/
structure FinanceBook where
  finance_book : Option String
  depreciation_method : String
  total_number_of_depreciations : Int
  frequency_of_depreciation : Int
  rate_of_depreciation : ℚ
  expected_value_after_useful_life : ℚ
  daily_prorata_based : Bool
  depreciation_start_date : Date
  value_after_depreciation : ℚ
deriving DecidableEq, Repr

/-- The `Asset Depreciation Schedule` document fields used by the engine.
`row_precision` is `d.precision("depreciation_amount")` (equally
`"accumulated_depreciation_amount"`) of the child rows. -/
structure ADSDoc where
  name : String
  asset : String
  finance_book : Option String
  opening_accumulated_depreciation : ℚ
  number_of_depreciations_booked : Int
  depreciation_method : String
  row_precision : ℕ
  depreciation_schedule : List DeprScheduleRow
deriving DecidableEq, Repr

/-- `get_total_days`: number of calendar days in the period of
`frequency` months ending at `date`, with month-end anchors snapped to
month ends. -/
def get_total_days (date : Date) (frequency : Int) : Int :=
  let period_start_date := add_months date (-frequency)
  let period_start_date :=
    if is_last_day_of_the_month date then get_last_day period_start_date
    else period_start_date
  date_diff date period_start_date

/-- `_get_pro_rata_amt`: pro-rata share of `depreciation_amount` for the
days from `from_date` to `to_date`, plus the raw day and month counts. -/
def get_pro_rata_amt (row : FinanceBook) (depreciation_amount : ℚ)
    (from_date to_date : Date) (has_wdv_or_dd_non_yearly_pro_rata : Bool) :
    ℚ × Int × Int :=
  let days := date_diff to_date from_date
  let months := month_diff to_date from_date
  let total_days :=
    if has_wdv_or_dd_non_yearly_pro_rata then get_total_days to_date 12
    else get_total_days to_date row.frequency_of_depreciation
  ((depreciation_amount * (days : ℚ)) / (total_days : ℚ), days, months)

/-- `_get_modified_available_for_use_date`: the available-for-use date
shifted by the periods already booked on the asset. -/
def get_modified_available_for_use_date (asset : Asset) (row : FinanceBook)
    (wdv_or_dd_non_yearly : Bool) : Date :=
  if wdv_or_dd_non_yearly then
    add_months asset.availDate (asset.number_of_depreciations_booked * 12)
  else
    add_months asset.availDate
      (asset.number_of_depreciations_booked * row.frequency_of_depreciation)

/-- `_check_is_pro_rata`: true when the span from the (adjusted)
available-for-use date to the depreciation start date is shorter than one
full period. -/
def check_is_pro_rata (asset : Asset) (row : FinanceBook)
    (wdv_or_dd_non_yearly : Bool) : Bool :=
  let from_date := get_modified_available_for_use_date asset row wdv_or_dd_non_yearly
  let days := date_diff row.depreciation_start_date from_date + 1
  let total_days :=
    if wdv_or_dd_non_yearly then get_total_days row.depreciation_start_date 12
    else get_total_days row.depreciation_start_date row.frequency_of_depreciation
  days < total_days

/-- `is_first_day_of_the_month` (defined at the bottom of the source
file). -/
def is_first_day_of_the_month (date : Date) : Bool :=
  get_first_day date == date

/-- `get_updated_rate_of_depreciation_for_wdv_and_dd`: the default
regional hook returns the policy's flat rate unchanged. -/
def get_updated_rate_of_depreciation_for_wdv_and_dd (asset : Asset)
    (depreciable_value : ℚ) (fb_row : FinanceBook) : ℚ :=
  fb_row.rate_of_depreciation

/-- Python's `%` on nonnegative reals: `x - y * ⌊x / y⌋`. -/
def qfmod (x y : ℚ) : ℚ :=
  x - y * (⌊x / y⌋ : ℤ)

/-- `get_wdv_or_dd_depr_amount`: Written-Down-Value / Double-Declining
Balance period amount. -/
def get_wdv_or_dd_depr_amount (depreciable_value rate_of_depreciation : ℚ)
    (frequency_of_depreciation : Int) (schedule_idx : Int)
    (prev_depreciation_amount : ℚ)
    (has_wdv_or_dd_non_yearly_pro_rata : Bool) : ℚ :=
  if frequency_of_depreciation = 12 then
    depreciable_value * (rate_of_depreciation / 100)
  else
    if has_wdv_or_dd_non_yearly_pro_rata then
      if schedule_idx = 0 then
        depreciable_value * (rate_of_depreciation / 100)
      else if qfmod (schedule_idx : ℚ) (12 / (frequency_of_depreciation : ℚ)) = 1 then
        depreciable_value * (frequency_of_depreciation : ℚ) * (rate_of_depreciation / 1200)
      else prev_depreciation_amount
    else
      if qfmod (schedule_idx : ℚ) (12 / (frequency_of_depreciation : ℚ)) = 0 then
        depreciable_value * (frequency_of_depreciation : ℚ) * (rate_of_depreciation / 1200)
      else prev_depreciation_amount

/-- `get_straight_line_or_manual_depr_amount`: Straight Line / Manual
period amount, with the four regeneration-reason variants and the
daily-pro-rata mode. -/
def get_straight_line_or_manual_depr_amount (asset : Asset) (row : FinanceBook)
    (schedule_idx : Int) (number_of_pending_depreciations : Int) : ℚ :=
  if asset.flags.increase_in_asset_life then
    (row.value_after_depreciation - row.expected_value_after_useful_life) /
      (((date_diff asset.to_date asset.availDate : ℚ)) / 365)
  else if asset.flags.increase_in_asset_value_due_to_repair then
    (row.value_after_depreciation - row.expected_value_after_useful_life) /
      (row.total_number_of_depreciations : ℚ)
  else if asset.flags.decrease_in_asset_value_due_to_value_adjustment then
    if row.daily_prorata_based then
      let daily_depr_amount :=
        (row.value_after_depreciation - row.expected_value_after_useful_life) /
          ((date_diff
            (get_last_day (add_months row.depreciation_start_date
              ((row.total_number_of_depreciations -
                asset.number_of_depreciations_booked - 1) *
                row.frequency_of_depreciation)))
            (add_days
              (get_last_day (add_months row.depreciation_start_date
                ((row.total_number_of_depreciations -
                  asset.number_of_depreciations_booked -
                  number_of_pending_depreciations - 1) *
                  row.frequency_of_depreciation)))
              1) : ℚ))
      let to_date :=
        get_last_day (add_months row.depreciation_start_date
          (schedule_idx * row.frequency_of_depreciation))
      let from_date :=
        add_days
          (get_last_day (add_months row.depreciation_start_date
            ((schedule_idx - 1) * row.frequency_of_depreciation)))
          1
      daily_depr_amount * ((date_diff to_date from_date + 1 : ℚ))
    else
      (row.value_after_depreciation - row.expected_value_after_useful_life) /
        (number_of_pending_depreciations : ℚ)
  else
    if row.daily_prorata_based then
      let daily_depr_amount :=
        (asset.gross_purchase_amount - asset.opening_accumulated_depreciation -
          row.expected_value_after_useful_life) /
          ((date_diff
            (get_last_day (add_months row.depreciation_start_date
              ((row.total_number_of_depreciations -
                asset.number_of_depreciations_booked - 1) *
                row.frequency_of_depreciation)))
            (add_days
              (get_last_day (add_months row.depreciation_start_date
                (-1 * row.frequency_of_depreciation)))
              1) : ℚ))
      let to_date :=
        get_last_day (add_months row.depreciation_start_date
          (schedule_idx * row.frequency_of_depreciation))
      let from_date :=
        add_days
          (get_last_day (add_months row.depreciation_start_date
            ((schedule_idx - 1) * row.frequency_of_depreciation)))
          1
      daily_depr_amount * ((date_diff to_date from_date + 1 : ℚ))
    else
      (asset.gross_purchase_amount - asset.opening_accumulated_depreciation -
        row.expected_value_after_useful_life) /
        ((row.total_number_of_depreciations -
          asset.number_of_depreciations_booked : Int) : ℚ)

/-- `get_depreciation_amount`: dispatch on the depreciation method.  Note
that any method other than the two straight-line names takes the
WDV/DDB branch. -/
def get_depreciation_amount (asset : Asset) (depreciable_value : ℚ)
    (fb_row : FinanceBook) (schedule_idx : Int)
    (prev_depreciation_amount : ℚ)
    (has_wdv_or_dd_non_yearly_pro_rata : Bool)
    (number_of_pending_depreciations : Int) : ℚ :=
  if fb_row.depreciation_method = "Straight Line" ∨
      fb_row.depreciation_method = "Manual" then
    get_straight_line_or_manual_depr_amount asset fb_row schedule_idx
      number_of_pending_depreciations
  else
    let rate_of_depreciation :=
      get_updated_rate_of_depreciation_for_wdv_and_dd asset depreciable_value fb_row
    get_wdv_or_dd_depr_amount depreciable_value rate_of_depreciation
      fb_row.frequency_of_depreciation schedule_idx prev_depreciation_amount
      has_wdv_or_dd_non_yearly_pro_rata

/-- `_get_value_after_depreciation_for_making_schedule`. -/
def get_value_after_depreciation_for_making_schedule (asset : Asset)
    (fb_row : FinanceBook) : ℚ :=
  if asset.docstatus = 1 ∧ fb_row.value_after_depreciation ≠ 0 then
    fb_row.value_after_depreciation
  else
    asset.gross_purchase_amount - asset.opening_accumulated_depreciation

/-- `add_depr_schedule_row`: append a fresh row (no journal entry,
accumulated amount defaulted to 0) to the schedule. -/
def add_depr_schedule_row (doc : ADSDoc) (schedule_date : Date)
    (depreciation_amount : ℚ) : ADSDoc :=
  { doc with depreciation_schedule :=
      doc.depreciation_schedule ++ [⟨schedule_date, depreciation_amount, 0, none⟩] }

/-- `get_depreciation_amount_for_first_row`: amount of the first schedule
row (Python indexes `[0]`, raising when the schedule is empty; the
guarded callers never reach that case). -/
def get_depreciation_amount_for_first_row (doc : ADSDoc) : ℚ :=
  (doc.depreciation_schedule.headD defaultRow).depreciation_amount

/-- `get_adjusted_depreciation_amount`: when there is no opening
accumulated depreciation, force
`first_row_amount + last_row_amount = unprorated_amount`. -/
def get_adjusted_depreciation_amount (doc : ADSDoc)
    (depreciation_amount_without_pro_rata depreciation_amount_for_last_row : ℚ) : ℚ :=
  if doc.opening_accumulated_depreciation = 0 then
    let depreciation_amount_for_first_row := get_depreciation_amount_for_first_row doc
    if depreciation_amount_for_first_row + depreciation_amount_for_last_row ≠
        depreciation_amount_without_pro_rata then
      depreciation_amount_without_pro_rata - depreciation_amount_for_first_row
    else depreciation_amount_for_last_row
  else depreciation_amount_for_last_row

/-- Loop body of `clear_depr_schedule`: keep the booked prefix, return
the kept rows and `start` (0 when no unbooked row is found, matching the
Python loop which only sets `start` at the `break`). -/
def clearDeprScheduleAux : List DeprScheduleRow → Nat → List DeprScheduleRow × Nat
  | [], _ => ([], 0)
  | r :: rest, completed =>
    if r.journal_entry.isSome then
      let rec_result := clearDeprScheduleAux rest (completed + 1)
      (r :: rec_result.1, rec_result.2)
    else ([], completed)

/-- `clear_depr_schedule`: truncate the schedule to its booked prefix and
return the index of the first period to regenerate. -/
def clear_depr_schedule (doc : ADSDoc) : ADSDoc × Nat :=
  let cleared := clearDeprScheduleAux doc.depreciation_schedule 0
  ({ doc with depreciation_schedule := cleared.1 }, cleared.2)

/-- The per-call constants of the `_make_depr_schedule` period loop. -/
structure MakeDeprCtx where
  asset : Asset
  row : FinanceBook
  date_of_disposal : Option Date
  final_number_of_depreciations : Int
  has_pro_rata : Bool
  has_wdv_or_dd_non_yearly_pro_rata : Bool
  should_get_last_day : Bool
  number_of_pending_depreciations : Int
deriving Repr

/-- The mutable state of the `_make_depr_schedule` period loop.
`schedule_date` is `none` before the Python local is first assigned
(using it then would raise `UnboundLocalError`); `asset_to_date` mirrors
the in-place mutation of `asset_doc.to_date` in the final-period
branch. -/
structure MakeDeprState where
  doc : ADSDoc
  value_after_depreciation : ℚ
  skip_row : Bool
  schedule_date : Option Date
  asset_to_date : Date
deriving Repr

/-- The first-row / last-row pro-rata branch chain of the period loop
(`_make_depr_schedule`, the `if n == 0 ... elif ... elif has_pro_rata and
n == final - 1` chain).  Returns the adjusted amount, the possibly
updated schedule date and the possibly updated `asset.to_date`. -/
def firstLastRowProRata (ctx : MakeDeprCtx) (n : Int) (st : MakeDeprState)
    (depreciation_amount : ℚ) (schedule_date : Option Date) :
    ℚ × Option Date × Date :=
  if n = 0 ∧ (ctx.has_pro_rata ∨ ctx.has_wdv_or_dd_non_yearly_pro_rata) ∧
      st.doc.opening_accumulated_depreciation = 0 then
    let from_date := add_days ctx.asset.availDate (-1)
    let amt := (get_pro_rata_amt ctx.row depreciation_amount
      from_date ctx.row.depreciation_start_date
      ctx.has_wdv_or_dd_non_yearly_pro_rata).1
    (amt, schedule_date, st.asset_to_date)
  else if n = 0 ∧ ctx.has_wdv_or_dd_non_yearly_pro_rata ∧
      st.doc.opening_accumulated_depreciation ≠ 0 then
    let from_date :=
      if ¬ is_first_day_of_the_month ctx.asset.availDate then
        get_last_day (add_months ctx.asset.availDate
          ((st.doc.number_of_depreciations_booked - 1) *
            ctx.row.frequency_of_depreciation))
      else
        add_months (add_days ctx.asset.availDate (-1))
          (st.doc.number_of_depreciations_booked * ctx.row.frequency_of_depreciation)
    let amt := (get_pro_rata_amt ctx.row depreciation_amount
      from_date ctx.row.depreciation_start_date
      ctx.has_wdv_or_dd_non_yearly_pro_rata).1
    (amt, schedule_date, st.asset_to_date)
  else if ctx.has_pro_rata ∧ n = ctx.final_number_of_depreciations - 1 then
    let to_date :=
      if ctx.asset.flags.increase_in_asset_life then st.asset_to_date
      else
        add_months ctx.asset.availDate
          ((n + st.doc.number_of_depreciations_booked) *
            ctx.row.frequency_of_depreciation)
    let depreciation_amount_without_pro_rata := depreciation_amount
    let sd := schedule_date.getD ctx.row.depreciation_start_date
    let pr := get_pro_rata_amt ctx.row depreciation_amount
      sd to_date ctx.has_wdv_or_dd_non_yearly_pro_rata
    let amt := get_adjusted_depreciation_amount st.doc
      depreciation_amount_without_pro_rata pr.1
    (amt, some (add_days sd pr.2.1), to_date)
  else
    (depreciation_amount, schedule_date, st.asset_to_date)

/-- One iteration of the `_make_depr_schedule` period loop.  The returned
boolean is true when the Python loop executes `break` (disposal). -/
def makeDeprStep (ctx : MakeDeprCtx) (n : Int) (st : MakeDeprState) :
    MakeDeprState × Bool :=
  if st.skip_row then (st, false)
  else
    let sched := st.doc.depreciation_schedule
    let prev_depreciation_amount : ℚ :=
      if 0 < n ∧ (n : Int) - 1 < (sched.length : Int) then
        ((sched.get? (n - 1).toNat).getD defaultRow).depreciation_amount
      else 0
    let depreciation_amount := get_depreciation_amount ctx.asset
      st.value_after_depreciation ctx.row n prev_depreciation_amount
      ctx.has_wdv_or_dd_non_yearly_pro_rata ctx.number_of_pending_depreciations
    let schedule_date : Option Date :=
      if ¬ ctx.has_pro_rata ∨
          (n < ctx.final_number_of_depreciations - 1 ∨
            ctx.final_number_of_depreciations = 2) then
        let sd := add_months ctx.row.depreciation_start_date
          (n * ctx.row.frequency_of_depreciation)
        some (if ctx.should_get_last_day then get_last_day sd else sd)
      else st.schedule_date
    match ctx.date_of_disposal with
    | some dd =>
      let from_date :=
        match sched.getLast? with
        | some last => last.schedule_date
        | none =>
          add_months ctx.asset.availDate
            (ctx.asset.number_of_depreciations_booked *
              ctx.row.frequency_of_depreciation)
      let amt :=
        (get_pro_rata_amt ctx.row depreciation_amount from_date dd false).1
      let doc' := if 0 < amt then add_depr_schedule_row st.doc dd amt else st.doc
      ({ st with doc := doc', schedule_date := schedule_date }, true)
    | none =>
      let fl := firstLastRowProRata ctx n st depreciation_amount schedule_date
      let amt := fl.1
      let sd := fl.2.1
      let atd := fl.2.2
      if amt = 0 then
        ({ st with schedule_date := sd, asset_to_date := atd }, false)
      else
        let value' := st.value_after_depreciation - fltp ctx.asset.precision amt
        if ctx.row.expected_value_after_useful_life ≠ 0 ∧
            ((n = ctx.final_number_of_depreciations - 1 ∧
              value' ≠ ctx.row.expected_value_after_useful_life) ∨
              value' < ctx.row.expected_value_after_useful_life) then
          let amt := amt + (value' - ctx.row.expected_value_after_useful_life)
          let doc' :=
            if 0 < fltp ctx.asset.precision amt then
              add_depr_schedule_row st.doc (sd.getD ctx.row.depreciation_start_date) amt
            else st.doc
          ({ doc := doc', value_after_depreciation := value', skip_row := true,
             schedule_date := sd, asset_to_date := atd }, false)
        else
          let doc' :=
            if 0 < fltp ctx.asset.precision amt then
              add_depr_schedule_row st.doc (sd.getD ctx.row.depreciation_start_date) amt
            else st.doc
          ({ doc := doc', value_after_depreciation := value', skip_row := st.skip_row,
             schedule_date := sd, asset_to_date := atd }, false)

/-- The `for n in range(start, final_number_of_depreciations)` loop of
`_make_depr_schedule`, driven by the remaining iteration count. -/
def makeDeprLoop (ctx : MakeDeprCtx) : Nat → Int → MakeDeprState → MakeDeprState
  | 0, _, st => st
  | fuel + 1, n, st =>
    match makeDeprStep ctx n st with
    | (st', true) => st'
    | (st', false) => makeDeprLoop ctx fuel (n + 1) st'

/-- `_make_depr_schedule`.  The call to the external
`asset_doc.validate_asset_finance_books` (Asset doctype, outside this
tree) and the persistence call `row.db_update()` are modelled as no-ops;
the mutation of `row.value_after_depreciation` is returned explicitly. -/
def make_depr_schedule_inner (doc : ADSDoc) (asset : Asset) (row : FinanceBook)
    (start : Nat) (date_of_disposal : Option Date)
    (value_after_depreciation : Option ℚ) : ADSDoc × FinanceBook :=
  let v0 := value_after_depreciation.getD 0
  let v := if v0 = 0 then get_value_after_depreciation_for_making_schedule asset row
    else v0
  let row := { row with value_after_depreciation := v }
  let final0 := row.total_number_of_depreciations - doc.number_of_depreciations_booked
  let has_pro_rata := check_is_pro_rata asset row false
  let final := if has_pro_rata then final0 + 1 else final0
  let has_wdv_or_dd_non_yearly_pro_rata :=
    if (row.depreciation_method = "Written Down Value" ∨
        row.depreciation_method = "Double Declining Balance") ∧
        row.frequency_of_depreciation ≠ 12 then
      check_is_pro_rata asset row true
    else false
  let should_get_last_day := is_last_day_of_the_month row.depreciation_start_date
  let number_of_pending_depreciations := final - (start : Int)
  let ctx : MakeDeprCtx :=
    ⟨asset, row, date_of_disposal, final, has_pro_rata,
      has_wdv_or_dd_non_yearly_pro_rata, should_get_last_day,
      number_of_pending_depreciations⟩
  let st0 : MakeDeprState := ⟨doc, v, false, none, asset.to_date⟩
  let stF := makeDeprLoop ctx (final - (start : Int)).toNat (start : Int) st0
  (stF.doc, row)

/-- `make_depr_schedule`: no-op when the asset has no available-for-use
date (the schedule is returned untouched, with no error), otherwise clear
to the booked prefix and regenerate. -/
def make_depr_schedule (doc : ADSDoc) (asset : Asset) (row : FinanceBook)
    (date_of_disposal : Option Date) (value_after_depreciation : Option ℚ) :
    ADSDoc × FinanceBook :=
  match asset.available_for_use_date with
  | none => (doc, row)
  | some _ =>
    let cleared := clear_depr_schedule doc
    make_depr_schedule_inner cleared.1 asset row cleared.2 date_of_disposal
      value_after_depreciation

/-- The per-call constants of `set_accumulated_depreciation`.
`straight_line` is true when the document's method is Straight Line or
Manual (then `straight_line_idx` is `[1, …, N]` and
`max(straight_line_idx) - 1 = N - 1`, the zero-based index of the LAST
row); `total_rows` is `N`. -/
structure SetAccCtx where
  asset : Asset
  opening_accumulated_depreciation : ℚ
  row_precision : ℕ
  expected_value_after_useful_life : ℚ
  no_disposal_or_return : Bool
  ignore_booked_entry : Bool
  straight_line : Bool
  total_rows : Nat
deriving Repr

/-- The row walk of `set_accumulated_depreciation`: `i` is the enumerate
index, `acc` the running total (`none` before first assignment, matching
the Python `None` / falsy-0 re-initialisation), `value` the running
`value_after_depreciation`, `processed` the rows already emitted. -/
def setAccAux (c : SetAccCtx) :
    List DeprScheduleRow → Nat → Option ℚ → ℚ → List DeprScheduleRow →
    List DeprScheduleRow
  | [], _, _, _, processed => processed
  | d :: rest, i, acc, value, processed =>
    if c.ignore_booked_entry ∧ d.journal_entry.isSome then
      setAccAux c rest (i + 1) acc value (processed ++ [d])
    else
      let accv : ℚ :=
        if acc = none ∨ acc = some 0 then
          if 0 < i ∧
              c.asset.flags.decrease_in_asset_value_due_to_value_adjustment then
            ((processed.getLast?).getD defaultRow).accumulated_depreciation_amount
          else c.opening_accumulated_depreciation
        else acc.getD 0
      let amt := fltp c.row_precision d.depreciation_amount
      let value := value - amt
      let amt :=
        if c.straight_line ∧ i = c.total_rows - 1 ∧ c.no_disposal_or_return then
          amt + fltp c.row_precision (value - c.expected_value_after_useful_life)
        else amt
      let accv := accv + amt
      let d' := { d with depreciation_amount := amt,
                         accumulated_depreciation_amount := fltp c.row_precision accv }
      setAccAux c rest (i + 1) (some accv) value (processed ++ [d'])

/-- `set_accumulated_depreciation`: second pass assigning running totals
and folding the residual difference into the last row of a Straight
Line / Manual schedule. -/
def set_accumulated_depreciation (doc : ADSDoc) (asset : Asset)
    (row : FinanceBook) (date_of_disposal date_of_return : Option Date)
    (ignore_booked_entry : Bool) : ADSDoc :=
  let c : SetAccCtx :=
    ⟨asset, doc.opening_accumulated_depreciation, doc.row_precision,
      row.expected_value_after_useful_life,
      date_of_disposal = none ∧ date_of_return = none,
      ignore_booked_entry,
      doc.depreciation_method = "Straight Line" ∨
        doc.depreciation_method = "Manual",
      doc.depreciation_schedule.length⟩
  { doc with depreciation_schedule :=
      setAccAux c doc.depreciation_schedule 0 none row.value_after_depreciation [] }

/-- One persisted `Asset Depreciation Schedule` record, as seen by the
uniqueness query of `validate_another_asset_depr_schedule_does_not_exist`
(`finance_book = none` models the "not set" database state). -/
structure ADSDBRecord where
  name : String
  asset : String
  finance_book : Option String
  docstatus : Int
deriving DecidableEq, Repr

/-- The filter list built by
`validate_another_asset_depr_schedule_does_not_exist`: same asset, the
finance-book filter (equality when the document names a finance book,
"is not set" otherwise), and `docstatus < 2`. -/
def adsFilterMatches (asset : String) (fb : Option String)
    (r : ADSDBRecord) : Bool :=
  r.asset == asset &&
    (match fb with
     | some f => r.finance_book == some f
     | none => r.finance_book == none) &&
    decide (r.docstatus < 2)

/-- `frappe.db.exists` over the modelled table: the name of the first
matching record, if any. -/
def ads_db_exists (db : List ADSDBRecord) (asset : String)
    (fb : Option String) : Option String :=
  (db.find? (adsFilterMatches asset fb)).map (·.name)

/-- `validate_another_asset_depr_schedule_does_not_exist`: true when the
validation throws the duplicate-schedule error. -/
def validate_another_asset_depr_schedule_does_not_exist
    (db : List ADSDBRecord) (doc : ADSDoc) : Bool :=
  match ads_db_exists db doc.asset doc.finance_book with
  | some nm => nm != doc.name
  | none => false

/-- Proof-side specification of the amount transformation performed by
`setAccAux` when no row is skipped: every amount is rounded to the row
precision, and the amount at enumerate index `total_rows - 1` of a
Straight Line / Manual walk with no disposal/return additionally absorbs
the residual `value - expected`. -/
def setAccAmounts (c : SetAccCtx) :
    List DeprScheduleRow → Nat → ℚ → List ℚ
  | [], _, _ => []
  | d :: rest, i, value =>
    let amt := fltp c.row_precision d.depreciation_amount
    let value := value - amt
    let amt :=
      if c.straight_line ∧ i = c.total_rows - 1 ∧ c.no_disposal_or_return then
        amt + fltp c.row_precision (value - c.expected_value_after_useful_life)
      else amt
    amt :: setAccAmounts c rest (i + 1) value

/-! ### Concrete instances used by per-claim counterexamples and witnesses -/

/-- C1 counterexample data: a Written Down Value policy, rate 20%, two
yearly periods, zero expected value after useful life, no pro-rata. -/
def c1_asset : Asset :=
  ⟨1000, 0, 0, some ⟨2020, 1, 1⟩, ⟨1900, 1, 1⟩, 0, 2, ⟨false, false, false⟩⟩

def c1_fb : FinanceBook :=
  ⟨none, "Written Down Value", 2, 12, 20, 0, false, ⟨2020, 12, 31⟩, 0⟩

def c1_doc : ADSDoc :=
  ⟨"ADS-C1", "A1", none, 0, 0, "Written Down Value", 2, []⟩

/-- C1 witness data: a Straight Line policy, three yearly periods over a
gross amount of 100 (amounts 100/3, not representable at 2 decimals). -/
def c1w_asset : Asset :=
  ⟨100, 0, 0, some ⟨2020, 1, 1⟩, ⟨1900, 1, 1⟩, 0, 2, ⟨false, false, false⟩⟩

def c1w_fb : FinanceBook :=
  ⟨none, "Straight Line", 3, 12, 0, 0, false, ⟨2020, 12, 31⟩, 0⟩

def c1w_doc : ADSDoc :=
  ⟨"ADS-C1W", "A1", none, 0, 0, "Straight Line", 2, []⟩

/-- C2 counterexample data: a schedule whose first row is booked (journal
entry set, stale accumulated total 10) followed by an unbooked row,
reconciled with `ignore_booked_entry`. -/
def c2_asset : Asset :=
  ⟨0, 0, 0, some ⟨2020, 1, 1⟩, ⟨1900, 1, 1⟩, 0, 2, ⟨false, false, false⟩⟩

def c2_fb : FinanceBook :=
  ⟨none, "Written Down Value", 2, 12, 20, 0, false, ⟨2020, 12, 31⟩, 20⟩

def c2_doc : ADSDoc :=
  ⟨"ADS-C2", "A1", none, 0, 0, "Written Down Value", 2,
    [⟨⟨2020, 12, 31⟩, 10, 10, some "JE1"⟩, ⟨⟨2021, 12, 31⟩, 10, 0, none⟩]⟩

/-- C2 witness data: two unbooked rows, nonzero opening accumulated
depreciation, Straight Line method. -/
def c2w_asset : Asset :=
  ⟨100, 5, 0, some ⟨2020, 1, 1⟩, ⟨1900, 1, 1⟩, 0, 2, ⟨false, false, false⟩⟩

def c2w_fb : FinanceBook :=
  ⟨none, "Straight Line", 2, 12, 0, 0, false, ⟨2020, 12, 31⟩, 95⟩

def c2w_doc : ADSDoc :=
  ⟨"ADS-C2W", "A1", none, 5, 0, "Straight Line", 2,
    [⟨⟨2020, 12, 31⟩, 10, 0, none⟩, ⟨⟨2021, 12, 31⟩, 20, 0, none⟩]⟩

/-- C3 counterexample data: a fully booked single-row Straight Line
schedule on an asset whose gross amount equals its opening accumulated
depreciation (so regeneration appends nothing and the booked row stays
the last row). -/
def c3_asset : Asset :=
  ⟨100, 100, 0, some ⟨2020, 1, 1⟩, ⟨1900, 1, 1⟩, 0, 2, ⟨false, false, false⟩⟩

def c3_fb : FinanceBook :=
  ⟨none, "Straight Line", 1, 12, 0, 0, false, ⟨2020, 12, 31⟩, 0⟩

def c3_doc : ADSDoc :=
  ⟨"ADS-C3", "A1", none, 100, 0, "Straight Line", 2,
    [⟨⟨2020, 12, 31⟩, 10, 10, some "JE1"⟩]⟩

/-- C3 witness data: a booked row followed by an unbooked row, regenerated
with `ignore_booked_entry`. -/
def c3w_asset : Asset :=
  ⟨100, 0, 0, some ⟨2020, 1, 1⟩, ⟨1900, 1, 1⟩, 0, 2, ⟨false, false, false⟩⟩

def c3w_fb : FinanceBook :=
  ⟨none, "Straight Line", 2, 12, 0, 0, false, ⟨2020, 12, 31⟩, 0⟩

def c3w_row : DeprScheduleRow :=
  ⟨⟨2020, 12, 31⟩, 50, 50, some "JE1"⟩

def c3w_doc : ADSDoc :=
  ⟨"ADS-C3W", "A1", none, 0, 0, "Straight Line", 2,
    [c3w_row, ⟨⟨2021, 12, 31⟩, 50, 0, none⟩]⟩

/-- C4 counterexample data: Straight Line, gross 101, three periods,
expected value after useful life 0 (falsy).  Each period amount is 101/3;
its rounding at 2 decimals is 33.67, so the running value ends at
−0.01 < 0 with no adjustment and no skip. -/
def c4_asset : Asset :=
  ⟨101, 0, 0, some ⟨2020, 1, 1⟩, ⟨1900, 1, 1⟩, 0, 2, ⟨false, false, false⟩⟩

def c4_fb : FinanceBook :=
  ⟨none, "Straight Line", 3, 12, 0, 0, false, ⟨2020, 12, 31⟩, 0⟩

def c4_row : FinanceBook :=
  ⟨none, "Straight Line", 3, 12, 0, 0, false, ⟨2020, 12, 31⟩, 101⟩

def c4_doc : ADSDoc :=
  ⟨"ADS-C4", "A1", none, 0, 0, "Straight Line", 2, []⟩

def c4_ctx : MakeDeprCtx :=
  ⟨c4_asset, c4_row, none, 3, false, false, true, 3⟩

def c4_st : MakeDeprState :=
  ⟨c4_doc, 101, false, none, ⟨1900, 1, 1⟩⟩

/-- C4 witness data (invariant part): expected value 1, value stays at or
above it for the whole un-skipped run. -/
def c4wa_asset : Asset :=
  ⟨100, 0, 0, some ⟨2020, 1, 1⟩, ⟨1900, 1, 1⟩, 0, 2, ⟨false, false, false⟩⟩

def c4wa_fb : FinanceBook :=
  ⟨none, "Straight Line", 3, 12, 0, 1, false, ⟨2020, 12, 31⟩, 100⟩

def c4wa_doc : ADSDoc :=
  ⟨"ADS-C4WA", "A1", none, 0, 0, "Straight Line", 2, []⟩

def c4wa_ctx : MakeDeprCtx :=
  ⟨c4wa_asset, c4wa_fb, none, 3, false, false, true, 3⟩

def c4wa_st : MakeDeprState :=
  ⟨c4wa_doc, 100, false, none, ⟨1900, 1, 1⟩⟩

/-- C4 witness data (trigger part): expected value 50, running value 60,
period amount 50/3 — the first period already dips below the residual,
triggers the adjustment and ends the loop with periods remaining. -/
def c4wb_asset : Asset :=
  ⟨100, 0, 0, some ⟨2020, 1, 1⟩, ⟨1900, 1, 1⟩, 0, 2, ⟨false, false, false⟩⟩

def c4wb_fb : FinanceBook :=
  ⟨none, "Straight Line", 3, 12, 50, 50, false, ⟨2020, 12, 31⟩, 100⟩

def c4wb_doc : ADSDoc :=
  ⟨"ADS-C4WB", "A1", none, 0, 0, "Straight Line", 2, []⟩

def c4wb_ctx : MakeDeprCtx :=
  ⟨c4wb_asset, c4wb_fb, none, 3, false, false, true, 3⟩

def c4wb_st : MakeDeprState :=
  ⟨c4wb_doc, 60, false, none, ⟨1900, 1, 1⟩⟩

/-- C5 witness data: Straight Line over five yearly periods; disposal on
2021-01-10, ten days into the second period. -/
def c5_asset : Asset :=
  ⟨1000, 0, 0, some ⟨2020, 1, 1⟩, ⟨1900, 1, 1⟩, 0, 2, ⟨false, false, false⟩⟩

def c5_fb : FinanceBook :=
  ⟨none, "Straight Line", 5, 12, 0, 0, false, ⟨2020, 12, 31⟩, 0⟩

def c5_doc : ADSDoc :=
  ⟨"ADS-C5", "A1", none, 0, 0, "Straight Line", 2, []⟩

/-- C8 counterexample data: three Straight Line rows of 33.33 against a
depreciable value of 100 — the 0.01 residual lands on the LAST row, not
the penultimate one. -/
def c8_asset : Asset :=
  ⟨100, 0, 0, some ⟨2020, 1, 1⟩, ⟨1900, 1, 1⟩, 0, 2, ⟨false, false, false⟩⟩

def c8_fb : FinanceBook :=
  ⟨none, "Straight Line", 3, 12, 0, 0, false, ⟨2020, 12, 31⟩, 100⟩

def c8_doc : ADSDoc :=
  ⟨"ADS-C8", "A1", none, 0, 0, "Straight Line", 2,
    [⟨⟨2020, 12, 31⟩, 3333/100, 0, none⟩, ⟨⟨2021, 12, 31⟩, 3333/100, 0, none⟩,
      ⟨⟨2022, 12, 31⟩, 3333/100, 0, none⟩]⟩

/-- C8 witness data: same shape as the counterexample, used to witness the
amended last-row statement. -/
def c8w_asset : Asset :=
  ⟨100, 0, 0, some ⟨2020, 1, 1⟩, ⟨1900, 1, 1⟩, 0, 2, ⟨false, false, false⟩⟩

def c8w_fb : FinanceBook :=
  ⟨none, "Straight Line", 3, 12, 0, 0, false, ⟨2020, 12, 31⟩, 100⟩

def c8w_doc : ADSDoc :=
  ⟨"ADS-C8W", "A1", none, 0, 0, "Straight Line", 2,
    [⟨⟨2020, 12, 31⟩, 3333/100, 0, none⟩, ⟨⟨2021, 12, 31⟩, 3333/100, 0, none⟩,
      ⟨⟨2022, 12, 31⟩, 3333/100, 0, none⟩]⟩

/-- C10 witness data: partial first period (available for use mid-June,
start date end of December), nonzero opening accumulated depreciation. -/
def c10_asset : Asset :=
  ⟨110, 10, 0, some ⟨2020, 6, 15⟩, ⟨1900, 1, 1⟩, 0, 2, ⟨false, false, false⟩⟩

def c10_fb : FinanceBook :=
  ⟨none, "Straight Line", 4, 12, 0, 0, false, ⟨2020, 12, 31⟩, 0⟩

def c10_doc : ADSDoc :=
  ⟨"ADS-C10", "A1", none, 10, 0, "Straight Line", 2, []⟩

/-! ### General lemmas about the rounding model -/

theorem roundMono {x y : ℚ} (h : x ≤ y) : round x ≤ round y := by
  rw [round_eq, round_eq]
  exact Int.floor_mono (by linarith)

theorem fltp_zero (p : ℕ) : fltp p 0 = 0 := by
  simp [fltp]

theorem fltp_nonneg (p : ℕ) {x : ℚ} (hx : 0 ≤ x) : 0 ≤ fltp p x := by
  unfold fltp
  have h0 : (0 : ℤ) ≤ round (x * (10 : ℚ) ^ p) := by
    have := roundMono (x := 0) (y := x * (10 : ℚ) ^ p) (by positivity)
    simpa using this
  positivity

theorem fltp_ne_zero_of_pos (p : ℕ) {x : ℚ} (hx : 0 < fltp p x) : x ≠ 0 := by
  intro h
  rw [h, fltp_zero] at hx
  exact lt_irrefl 0 hx

theorem abs_fltp_sub_le (p : ℕ) (x : ℚ) : |fltp p x - x| ≤ 1 / 2 / 10 ^ p := by
  have hpow : (0 : ℚ) < 10 ^ p := by positivity
  have h := abs_sub_round (x * (10 : ℚ) ^ p)
  rw [abs_sub_comm] at h
  unfold fltp
  have heq : ((round (x * (10 : ℚ) ^ p) : ℤ) : ℚ) / 10 ^ p - x =
      (((round (x * (10 : ℚ) ^ p) : ℤ) : ℚ) - x * 10 ^ p) / 10 ^ p := by
    field_simp
    ring
  rw [heq, abs_div, abs_of_pos hpow]
  exact (div_le_div_iff_of_pos_right hpow).mpr h

theorem fltp_fltp (p : ℕ) (x : ℚ) : fltp p (fltp p x) = fltp p x := by
  unfold fltp
  have hpow : ((10 : ℚ) ^ p) ≠ 0 := by positivity
  rw [div_mul_cancel₀ _ hpow, round_intCast]

theorem fltp_add_fix (p : ℕ) {x y : ℚ} (hx : fltp p x = x) (hy : fltp p y = y) :
    fltp p (x + y) = x + y := by
  have hpow : ((10 : ℚ) ^ p) ≠ 0 := by positivity
  have hx' : x = ((round (x * (10 : ℚ) ^ p) : ℤ) : ℚ) / (10 : ℚ) ^ p := by
    conv_lhs => rw [← hx]
    rfl
  have hy' : y = ((round (y * (10 : ℚ) ^ p) : ℤ) : ℚ) / (10 : ℚ) ^ p := by
    conv_lhs => rw [← hy]
    rfl
  rw [hx', hy', div_add_div_same, ← Int.cast_add]
  unfold fltp
  rw [div_mul_cancel₀ _ hpow, round_intCast]

/-! ### Lemmas about the modelled Python modulus -/

theorem qfmod_intCast (a k : ℤ) (hk : 0 < k) :
    qfmod (a : ℚ) (k : ℚ) = ((a % k : ℤ) : ℚ) := by
  unfold qfmod
  have hkn : ((k.toNat : ℕ) : ℚ) = (k : ℚ) := by
    exact_mod_cast Int.toNat_of_nonneg hk.le
  have hfl : ⌊(a : ℚ) / (k : ℚ)⌋ = a / k := by
    rw [← hkn, Rat.floor_intCast_div_natCast]
    congr 1
    exact Int.toNat_of_nonneg hk.le
  rw [hfl, Int.emod_def]
  push_cast
  ring

/-! ### Structural lemmas about the generation loop -/

theorem makeDeprStep_skip (ctx : MakeDeprCtx) (n : Int) (st : MakeDeprState)
    (h : st.skip_row = true) : makeDeprStep ctx n st = (st, false) := by
  unfold makeDeprStep
  simp [h]

theorem makeDeprLoop_skip (ctx : MakeDeprCtx) (fuel : Nat) (n : Int)
    (st : MakeDeprState) (h : st.skip_row = true) :
    makeDeprLoop ctx fuel n st = st := by
  induction fuel generalizing n with
  | zero => rfl
  | succ fuel ih =>
    simp only [makeDeprLoop, makeDeprStep_skip ctx n st h]
    exact ih (n + 1)

theorem rows_add_row_ite (c : Prop) [Decidable c] (d : ADSDoc) (x : Date) (a : ℚ) :
    (if c then add_depr_schedule_row d x a else d).depreciation_schedule =
      d.depreciation_schedule ++ (if c then [⟨x, a, 0, none⟩] else []) := by
  split <;> simp [add_depr_schedule_row]

theorem makeDeprStep_rows (ctx : MakeDeprCtx) (n : Int) (st : MakeDeprState) :
    ∃ t, (makeDeprStep ctx n st).1.doc.depreciation_schedule =
        st.doc.depreciation_schedule ++ t ∧
      ∀ r ∈ t, r.journal_entry = none := by
  unfold makeDeprStep
  dsimp only
  repeat' split
  all_goals first
    | ((refine ⟨[], ?_, ?_⟩ <;> simp) ; done)
    | (exact ⟨_, rfl, by simp [add_depr_schedule_row]⟩)

theorem makeDeprLoop_rows (ctx : MakeDeprCtx) (fuel : Nat) (n : Int)
    (st : MakeDeprState) :
    ∃ t, (makeDeprLoop ctx fuel n st).doc.depreciation_schedule =
        st.doc.depreciation_schedule ++ t ∧
      ∀ r ∈ t, r.journal_entry = none := by
  induction fuel generalizing n st with
  | zero => exact ⟨[], by simp [makeDeprLoop], by simp⟩
  | succ fuel ih =>
    obtain ⟨t1, h1, hj1⟩ := makeDeprStep_rows ctx n st
    cases hstep : makeDeprStep ctx n st with
    | mk st' brk =>
      rw [hstep] at h1
      cases brk with
      | true =>
        simp only [makeDeprLoop, hstep]
        exact ⟨t1, h1, hj1⟩
      | false =>
        obtain ⟨t2, h2, hj2⟩ := ih (n + 1) st'
        simp only [makeDeprLoop, hstep]
        refine ⟨t1 ++ t2, ?_, ?_⟩
        · rw [h2, h1, List.append_assoc]
        · intro r hr
          rcases List.mem_append.mp hr with h | h
          · exact hj1 r h
          · exact hj2 r h

theorem makeDeprStep_value (ctx : MakeDeprCtx) (n : Int) (st : MakeDeprState)
    (hskip : st.skip_row = false)
    (hE : ctx.row.expected_value_after_useful_life ≠ 0)
    (hv : ctx.row.expected_value_after_useful_life ≤ st.value_after_depreciation) :
    (makeDeprStep ctx n st).1.skip_row = false →
      ctx.row.expected_value_after_useful_life ≤
        (makeDeprStep ctx n st).1.value_after_depreciation := by
  unfold makeDeprStep
  rw [hskip, if_neg (by decide : ¬ (false = true))]
  dsimp only
  repeat' split
  all_goals intro h
  all_goals first
    | exact hv
    | (rename_i htrig _
       push_neg at htrig
       exact (htrig hE).2)
    | (rename_i htrig
       push_neg at htrig
       exact (htrig hE).2)
    | simp at h

theorem makeDeprLoop_value (ctx : MakeDeprCtx) (fuel : Nat) (n : Int)
    (st : MakeDeprState)
    (hE : ctx.row.expected_value_after_useful_life ≠ 0)
    (hv : ctx.row.expected_value_after_useful_life ≤ st.value_after_depreciation)
    (hskip : st.skip_row = false) :
    (makeDeprLoop ctx fuel n st).skip_row = false →
      ctx.row.expected_value_after_useful_life ≤
        (makeDeprLoop ctx fuel n st).value_after_depreciation := by
  induction fuel generalizing n st with
  | zero =>
    intro _
    exact hv
  | succ fuel ih =>
    have hval := makeDeprStep_value ctx n st hskip hE hv
    cases hstep : makeDeprStep ctx n st with
    | mk st' brk =>
      rw [hstep] at hval
      cases brk with
      | true =>
        simp only [makeDeprLoop, hstep]
        exact hval
      | false =>
        simp only [makeDeprLoop, hstep]
        cases hskip' : st'.skip_row with
        | true =>
          rw [makeDeprLoop_skip ctx fuel (n + 1) st' hskip']
          intro h
          rw [h] at hskip'
          cases hskip'
        | false =>
          exact ih (n + 1) st' (hval hskip') hskip'

theorem makeDeprStep_doc (ctx : MakeDeprCtx) (n : Int) (st : MakeDeprState) :
    ∃ sch, (makeDeprStep ctx n st).1.doc =
      { st.doc with depreciation_schedule := sch } := by
  unfold makeDeprStep
  dsimp only
  repeat' split
  all_goals exact ⟨_, rfl⟩

theorem makeDeprLoop_doc (ctx : MakeDeprCtx) (fuel : Nat) (n : Int)
    (st : MakeDeprState) :
    ∃ sch, (makeDeprLoop ctx fuel n st).doc =
      { st.doc with depreciation_schedule := sch } := by
  induction fuel generalizing n st with
  | zero => exact ⟨st.doc.depreciation_schedule, rfl⟩
  | succ fuel ih =>
    obtain ⟨s1, h1⟩ := makeDeprStep_doc ctx n st
    cases hstep : makeDeprStep ctx n st with
    | mk st' brk =>
      rw [hstep] at h1
      cases brk with
      | true =>
        simp only [makeDeprLoop, hstep]
        exact ⟨s1, h1⟩
      | false =>
        obtain ⟨s2, h2⟩ := ih (n + 1) st'
        simp only [makeDeprLoop, hstep]
        refine ⟨s2, ?_⟩
        rw [h2, h1]

theorem clearDeprScheduleAux_mem :
    ∀ (l : List DeprScheduleRow) (completed : Nat),
      ∀ r ∈ (clearDeprScheduleAux l completed).1, r ∈ l := by
  intro l
  induction l with
  | nil =>
    intro completed r hr
    simpa [clearDeprScheduleAux] using hr
  | cons d rest ih =>
    intro completed r hr
    rw [clearDeprScheduleAux] at hr
    by_cases hj : d.journal_entry.isSome
    · rw [if_pos hj] at hr
      dsimp only at hr
      rcases List.mem_cons.mp hr with h | h
      · simp [h]
      · exact List.mem_cons_of_mem d (ih (completed + 1) r h)
    · rw [if_neg hj] at hr
      simp at hr

/-! ### Lemmas about the reconciler -/

theorem setAccAux_booked (c : SetAccCtx) (hig : c.ignore_booked_entry = true) :
    ∀ (pending : List DeprScheduleRow) (i : Nat) (acc : Option ℚ) (value : ℚ)
      (processed : List DeprScheduleRow),
      ∀ r ∈ setAccAux c pending i acc value processed,
        r.journal_entry.isSome = true → r ∈ processed ∨ r ∈ pending := by
  intro pending
  induction pending with
  | nil =>
    intro i acc value processed r hr _
    rw [setAccAux] at hr
    exact Or.inl hr
  | cons d rest ih =>
    intro i acc value processed r hr hj
    rw [setAccAux] at hr
    by_cases hd : d.journal_entry.isSome
    · rw [if_pos (by simp [hig, hd])] at hr
      rcases ih (i + 1) acc value (processed ++ [d]) r hr hj with h | h
      · rcases List.mem_append.mp h with h2 | h2
        · exact Or.inl h2
        · right
          simp at h2
          simp [h2]
      · right
        exact List.mem_cons_of_mem d h
    · rw [if_neg (by simp [hd])] at hr
      dsimp only at hr
      rcases ih _ _ _ _ r hr hj with h | h
      · rcases List.mem_append.mp h with h2 | h2
        · exact Or.inl h2
        · -- r is the transformed row, whose journal entry is d's, which is not set
          exfalso
          simp at h2
          rw [h2] at hj
          simp at hj
          rw [hj] at hd
          simp at hd
      · right
        exact List.mem_cons_of_mem d h

theorem setAccAux_amounts (c : SetAccCtx) (hig : c.ignore_booked_entry = false) :
    ∀ (pending : List DeprScheduleRow) (i : Nat) (acc : Option ℚ) (value : ℚ)
      (processed : List DeprScheduleRow),
      (setAccAux c pending i acc value processed).map (·.depreciation_amount) =
        processed.map (·.depreciation_amount) ++ setAccAmounts c pending i value := by
  intro pending
  induction pending with
  | nil =>
    intro i acc value processed
    simp [setAccAux, setAccAmounts]
  | cons d rest ih =>
    intro i acc value processed
    rw [setAccAux, setAccAmounts]
    rw [if_neg (by simp [hig])]
    dsimp only
    rw [ih]
    simp [List.append_assoc]

theorem setAccAmounts_length (c : SetAccCtx) :
    ∀ (pending : List DeprScheduleRow) (i : Nat) (value : ℚ),
      (setAccAmounts c pending i value).length = pending.length := by
  intro pending
  induction pending with
  | nil => intro i value; rfl
  | cons d rest ih =>
    intro i value
    rw [setAccAmounts]
    simp [ih]

theorem setAccAmounts_eq (c : SetAccCtx) (hsl : c.straight_line = true)
    (hnd : c.no_disposal_or_return = true) :
    ∀ (pending : List DeprScheduleRow) (i : Nat) (value : ℚ),
      pending ≠ [] → i + pending.length = c.total_rows →
      setAccAmounts c pending i value =
        (pending.map (fun r => fltp c.row_precision r.depreciation_amount)).dropLast ++
          [fltp c.row_precision
              ((pending.getLast?.getD defaultRow).depreciation_amount) +
            fltp c.row_precision
              (value -
                (pending.map
                  (fun r => fltp c.row_precision r.depreciation_amount)).sum -
                c.expected_value_after_useful_life)] := by
  intro pending
  induction pending with
  | nil =>
    intro i value hne
    exact absurd rfl hne
  | cons d rest ih =>
    intro i value _ hlen
    cases rest with
    | nil =>
      have hi : i = c.total_rows - 1 := by
        simp at hlen
        omega
      rw [setAccAmounts]
      rw [if_pos (by simp [hsl, hnd, hi])]
      simp [setAccAmounts]
    | cons e rest' =>
      have hne : ¬ (i = c.total_rows - 1) := by
        simp at hlen
        omega
      rw [setAccAmounts]
      rw [if_neg (by simp [hne])]
      rw [ih (i + 1) (value - fltp c.row_precision d.depreciation_amount) (by simp)
        (by simp at hlen ⊢; omega)]
      have harg :
          value - fltp c.row_precision d.depreciation_amount -
              ((List.map (fun r => fltp c.row_precision r.depreciation_amount)
                (e :: rest')).sum) -
              c.expected_value_after_useful_life =
            value -
              ((List.map (fun r => fltp c.row_precision r.depreciation_amount)
                (d :: e :: rest')).sum) -
              c.expected_value_after_useful_life := by
        simp
        ring
      rw [harg]
      simp

theorem getLastD_eq_get (l : List DeprScheduleRow) (h : l ≠ []) :
    l.getLast?.getD defaultRow =
      l.get ⟨l.length - 1, by
        cases l with
        | nil => exact absurd rfl h
        | cons a t => simp⟩ := by
  rw [List.getLast?_eq_getLast l h]
  rw [Option.getD_some]
  rw [List.getLast_eq_get]

theorem get_append_last {α : Type} (l : List α) (x : α)
    (hj : l.length < (l ++ [x]).length) :
    (l ++ [x]).get ⟨l.length, hj⟩ = x := by
  rw [List.get_append_right _ _ (by omega)]
  all_goals simp

theorem setAccAux_accs (c : SetAccCtx) (hig : c.ignore_booked_entry = false)
    (hop_nn : 0 ≤ c.opening_accumulated_depreciation)
    (hop_fix : fltp c.row_precision c.opening_accumulated_depreciation =
      c.opening_accumulated_depreciation) :
    ∀ (pending : List DeprScheduleRow) (i : Nat) (acc : Option ℚ) (value : ℚ)
      (processed : List DeprScheduleRow),
      (∀ r ∈ pending, 0 ≤ r.depreciation_amount) →
      processed.length = i →
      i + pending.length = c.total_rows →
      (∀ j (hj : j < processed.length),
        (processed.get ⟨j, hj⟩).accumulated_depreciation_amount =
          c.opening_accumulated_depreciation +
            ((processed.take (j + 1)).map (·.depreciation_amount)).sum) →
      ((processed = [] ∧ acc = none) ∨
        (processed ≠ [] ∧
          acc = some (c.opening_accumulated_depreciation +
            ((processed.map (·.depreciation_amount)).sum)) ∧
          fltp c.row_precision (c.opening_accumulated_depreciation +
            ((processed.map (·.depreciation_amount)).sum)) =
            c.opening_accumulated_depreciation +
              ((processed.map (·.depreciation_amount)).sum) ∧
          (pending ≠ [] → 0 ≤ ((processed.map (·.depreciation_amount)).sum)))) →
      ∀ j (hj : j < (setAccAux c pending i acc value processed).length),
        ((setAccAux c pending i acc value processed).get
            ⟨j, hj⟩).accumulated_depreciation_amount =
          c.opening_accumulated_depreciation +
            (((setAccAux c pending i acc value processed).take (j + 1)).map
              (·.depreciation_amount)).sum := by
  intro pending
  induction pending with
  | nil =>
    intro i acc value processed _ _ _ hQ _
    simpa [setAccAux] using hQ
  | cons d rest ih =>
    intro i acc value processed hamts hpl hlen hQ hinv
    rw [setAccAux, if_neg (by simp [hig])]
    dsimp only
    have hafix : fltp c.row_precision (fltp c.row_precision d.depreciation_amount) =
        fltp c.row_precision d.depreciation_amount := fltp_fltp _ _
    have hann : 0 ≤ fltp c.row_precision d.depreciation_amount :=
      fltp_nonneg _ (hamts d (by simp))
    have hXfix : fltp c.row_precision (c.opening_accumulated_depreciation +
        ((processed.map (·.depreciation_amount)).sum)) =
        c.opening_accumulated_depreciation +
          ((processed.map (·.depreciation_amount)).sum) := by
      rcases hinv with ⟨hpe, _⟩ | ⟨_, _, hfix, _⟩
      · subst hpe
        simpa using hop_fix
      · exact hfix
    have hXnn : 0 ≤ c.opening_accumulated_depreciation +
        ((processed.map (·.depreciation_amount)).sum) := by
      rcases hinv with ⟨hpe, _⟩ | ⟨_, _, _, hnn⟩
      · subst hpe
        simpa using hop_nn
      · have := hnn (by simp)
        linarith
    have hbase :
        (if acc = none ∨ acc = some 0 then
          if 0 < i ∧
              c.asset.flags.decrease_in_asset_value_due_to_value_adjustment then
            ((processed.getLast?).getD defaultRow).accumulated_depreciation_amount
          else c.opening_accumulated_depreciation
        else acc.getD 0) =
          c.opening_accumulated_depreciation +
            ((processed.map (·.depreciation_amount)).sum) := by
      rcases hinv with ⟨hpe, hacc⟩ | ⟨hpe, hacc, _hfix, hnn⟩
      · subst hpe
        rw [if_pos (Or.inl hacc)]
        have hi0 : i = 0 := by simpa using hpl.symm
        rw [if_neg (by simp [hi0])]
        simp
      · have hnn2 := hnn (by simp)
        by_cases hA : c.opening_accumulated_depreciation +
            ((processed.map (·.depreciation_amount)).sum) = 0
        · rw [if_pos (by rw [hacc, hA]; exact Or.inr rfl)]
          by_cases hflag : 0 < i ∧
              c.asset.flags.decrease_in_asset_value_due_to_value_adjustment = true
          · rw [if_pos hflag]
            rw [getLastD_eq_get processed hpe]
            rw [hQ (processed.length - 1) (by
              cases processed with
              | nil => exact absurd rfl hpe
              | cons a t => simp)]
            have htake : processed.take (processed.length - 1 + 1) = processed := by
              apply List.take_of_length_le
              omega
            rw [htake]
          · rw [if_neg hflag]
            have hop0 : c.opening_accumulated_depreciation = 0 := by linarith
            rw [hop0] at hA ⊢
            linarith
        · rw [if_neg (by
            rw [hacc]
            simp
            exact hA)]
          rw [hacc]
          rfl
    rw [hbase]
    have hadjfix :
        fltp c.row_precision
          (if c.straight_line ∧ i = c.total_rows - 1 ∧ c.no_disposal_or_return then
            fltp c.row_precision d.depreciation_amount +
              fltp c.row_precision
                (value - fltp c.row_precision d.depreciation_amount -
                  c.expected_value_after_useful_life)
          else fltp c.row_precision d.depreciation_amount) =
          (if c.straight_line ∧ i = c.total_rows - 1 ∧ c.no_disposal_or_return then
            fltp c.row_precision d.depreciation_amount +
              fltp c.row_precision
                (value - fltp c.row_precision d.depreciation_amount -
                  c.expected_value_after_useful_life)
          else fltp c.row_precision d.depreciation_amount) := by
      split
      · exact fltp_add_fix _ hafix (fltp_fltp _ _)
      · exact hafix
    apply ih
    · intro r hr
      exact hamts r (by simp [hr])
    · simp [hpl]
    · simp at hlen ⊢
      omega
    · intro j hj
      rcases Nat.lt_or_ge j processed.length with hlt | hge
      · rw [List.get_append _ hlt]
        rw [List.take_append_of_le_length (by omega)]
        exact hQ j hlt
      · have hj2 : j = processed.length := by
          simp at hj
          omega
        subst hj2
        rw [get_append_last]
        rw [List.take_of_length_le (by simp)]
        simp only [List.map_append, List.sum_append, List.map_cons, List.map_nil,
          List.sum_cons, List.sum_nil, add_zero]
        rw [← add_assoc]
        exact fltp_add_fix _ hXfix hadjfix
    · right
      refine ⟨by simp, ?_, ?_, ?_⟩
      · simp only [List.map_append, List.sum_append, List.map_cons, List.map_nil,
          List.sum_cons, List.sum_nil, add_zero]
        rw [← add_assoc]
      · simp only [List.map_append, List.sum_append, List.map_cons, List.map_nil,
          List.sum_cons, List.sum_nil, add_zero]
        rw [← add_assoc]
        exact fltp_add_fix _ hXfix hadjfix
      · intro hrest
        simp only [List.map_append, List.sum_append, List.map_cons, List.map_nil,
          List.sum_cons, List.sum_nil, add_zero]
        have hne2 : ¬ (i = c.total_rows - 1) := by
          cases rest with
          | nil => exact absurd rfl hrest
          | cons e rest2 =>
            simp at hlen
            omega
        rw [if_neg (by simp [hne2])]
        have hsum_nn : 0 ≤ ((processed.map (·.depreciation_amount)).sum) := by
          rcases hinv with ⟨hpe, _⟩ | ⟨_, _, _, hnn⟩
          · subst hpe
            simp
          · exact hnn (by simp)
        linarith

theorem setAccAmounts_sum (c : SetAccCtx) (hsl : c.straight_line = true)
    (hnd : c.no_disposal_or_return = true) :
    ∀ (pending : List DeprScheduleRow) (i : Nat) (value : ℚ),
      pending ≠ [] → i + pending.length = c.total_rows →
      (setAccAmounts c pending i value).sum =
        (pending.map (fun r => fltp c.row_precision r.depreciation_amount)).sum +
          fltp c.row_precision
            (value -
              (pending.map
                (fun r => fltp c.row_precision r.depreciation_amount)).sum -
              c.expected_value_after_useful_life) := by
  intro pending
  induction pending with
  | nil =>
    intro i value hne
    exact absurd rfl hne
  | cons d rest ih =>
    intro i value _ hlen
    cases rest with
    | nil =>
      have hi : i = c.total_rows - 1 := by
        simp at hlen
        omega
      rw [setAccAmounts]
      rw [if_pos (by simp [hsl, hnd, hi])]
      simp [setAccAmounts]
    | cons e rest' =>
      have hne : ¬ (i = c.total_rows - 1) := by
        simp at hlen
        omega
      rw [setAccAmounts]
      rw [if_neg (by simp [hne])]
      rw [List.sum_cons]
      rw [ih (i + 1) (value - fltp c.row_precision d.depreciation_amount) (by simp)
        (by simp at hlen ⊢; omega)]
      have harg :
          value - fltp c.row_precision d.depreciation_amount -
              ((List.map (fun r => fltp c.row_precision r.depreciation_amount)
                (e :: rest')).sum) -
              c.expected_value_after_useful_life =
            value -
              ((List.map (fun r => fltp c.row_precision r.depreciation_amount)
                (d :: e :: rest')).sum) -
              c.expected_value_after_useful_life := by
        simp
        ring
      rw [harg]
      simp
      ring

/-! ### Bridge lemmas between the document operations and the loop lemmas -/

theorem take_one_sum (l : List DeprScheduleRow) (h0 : 0 < l.length) :
    ((l.take 1).map (·.depreciation_amount)).sum =
      (l.get ⟨0, h0⟩).depreciation_amount := by
  cases l with
  | nil => simp at h0
  | cons a t => simp

theorem makeDeprLoop_mem (ctx : MakeDeprCtx) (fuel : Nat) (n : Int)
    (st : MakeDeprState) :
    ∀ r ∈ (makeDeprLoop ctx fuel n st).doc.depreciation_schedule,
      r ∈ st.doc.depreciation_schedule ∨ r.journal_entry = none := by
  intro r hr
  obtain ⟨t, ht, hj⟩ := makeDeprLoop_rows ctx fuel n st
  rw [ht] at hr
  rcases List.mem_append.mp hr with h | h
  · exact Or.inl h
  · exact Or.inr (hj r h)

theorem make_depr_schedule_inner_rows (doc : ADSDoc) (asset : Asset)
    (row : FinanceBook) (start : Nat) (dd : Option Date) (vo : Option ℚ) :
    ∀ r ∈ (make_depr_schedule_inner doc asset row start dd
        vo).1.depreciation_schedule,
      r ∈ doc.depreciation_schedule ∨ r.journal_entry = none := by
  intro r hr
  unfold make_depr_schedule_inner at hr
  dsimp only at hr
  exact makeDeprLoop_mem _ _ _ _ r hr

theorem make_depr_schedule_rows (doc : ADSDoc) (asset : Asset)
    (row : FinanceBook) (dd : Option Date) (vo : Option ℚ) :
    ∀ r ∈ (make_depr_schedule doc asset row dd vo).1.depreciation_schedule,
      r ∈ doc.depreciation_schedule ∨ r.journal_entry = none := by
  intro r hr
  unfold make_depr_schedule at hr
  cases hd : asset.available_for_use_date with
  | none =>
    rw [hd] at hr
    exact Or.inl hr
  | some d0 =>
    rw [hd] at hr
    dsimp only at hr
    rcases make_depr_schedule_inner_rows _ _ _ _ _ _ r hr with h | h
    · exact Or.inl (clearDeprScheduleAux_mem _ _ r h)
    · exact Or.inr h

theorem set_accumulated_depreciation_booked (doc : ADSDoc) (asset : Asset)
    (row : FinanceBook) (dd ret : Option Date) :
    ∀ r ∈ (set_accumulated_depreciation doc asset row dd ret
        true).depreciation_schedule,
      r.journal_entry.isSome = true → r ∈ doc.depreciation_schedule := by
  intro r hr hj
  rcases setAccAux_booked _ rfl _ _ _ _ _ r hr hj with h | h
  · simp at h
  · exact h

theorem make_depr_schedule_fst (doc : ADSDoc) (asset : Asset)
    (row : FinanceBook) (dd : Option Date) (vo : Option ℚ) :
    ∃ sch, (make_depr_schedule doc asset row dd vo).1 =
      { doc with depreciation_schedule := sch } := by
  unfold make_depr_schedule
  cases hd : asset.available_for_use_date with
  | none => exact ⟨doc.depreciation_schedule, rfl⟩
  | some d0 =>
    dsimp only
    unfold make_depr_schedule_inner
    dsimp only
    obtain ⟨sch, hs⟩ := makeDeprLoop_doc _ _ _ _
    exact ⟨sch, hs⟩

theorem make_depr_schedule_snd (doc : ADSDoc) (asset : Asset)
    (row : FinanceBook) (dd : Option Date)
    (hav : asset.available_for_use_date ≠ none)
    (hdoc : asset.docstatus ≠ 1) :
    (make_depr_schedule doc asset row dd none).2 =
      { row with value_after_depreciation :=
          asset.gross_purchase_amount -
            asset.opening_accumulated_depreciation } := by
  unfold make_depr_schedule
  cases hd : asset.available_for_use_date with
  | none => exact absurd hd hav
  | some d0 =>
    dsimp only
    unfold make_depr_schedule_inner
    dsimp only
    rw [if_pos (by simp)]
    unfold get_value_after_depreciation_for_making_schedule
    rw [if_neg (by simp [hdoc])]

theorem makeDeprLoop_disposal (ctx : MakeDeprCtx) (fuel : Nat) (n : Int)
    (st : MakeDeprState) (dd : Date)
    (hskip : st.skip_row = false)
    (hdd : ctx.date_of_disposal = some dd) :
    (makeDeprLoop ctx (fuel + 1) n st).doc.depreciation_schedule =
      st.doc.depreciation_schedule ++
        (if 0 < (get_pro_rata_amt ctx.row
            (get_depreciation_amount ctx.asset st.value_after_depreciation
              ctx.row n
              (if 0 < n ∧ (n : Int) - 1 <
                  (st.doc.depreciation_schedule.length : Int) then
                ((st.doc.depreciation_schedule.get? (n - 1).toNat).getD
                  defaultRow).depreciation_amount
              else 0)
              ctx.has_wdv_or_dd_non_yearly_pro_rata
              ctx.number_of_pending_depreciations)
            (match st.doc.depreciation_schedule.getLast? with
              | some last => last.schedule_date
              | none => add_months ctx.asset.availDate
                  (ctx.asset.number_of_depreciations_booked *
                    ctx.row.frequency_of_depreciation))
            dd false).1 then
          [⟨dd, (get_pro_rata_amt ctx.row
            (get_depreciation_amount ctx.asset st.value_after_depreciation
              ctx.row n
              (if 0 < n ∧ (n : Int) - 1 <
                  (st.doc.depreciation_schedule.length : Int) then
                ((st.doc.depreciation_schedule.get? (n - 1).toNat).getD
                  defaultRow).depreciation_amount
              else 0)
              ctx.has_wdv_or_dd_non_yearly_pro_rata
              ctx.number_of_pending_depreciations)
            (match st.doc.depreciation_schedule.getLast? with
              | some last => last.schedule_date
              | none => add_months ctx.asset.availDate
                  (ctx.asset.number_of_depreciations_booked *
                    ctx.row.frequency_of_depreciation))
            dd false).1, 0, none⟩]
        else []) := by
  simp only [makeDeprLoop]
  unfold makeDeprStep
  rw [if_neg (by simp [hskip])]
  dsimp only
  rw [hdd]
  dsimp only
  rw [rows_add_row_ite]
  norm_num

theorem makeDeprLoop_trigger (ctx : MakeDeprCtx) (fuel : Nat) (n : Int)
    (st : MakeDeprState)
    (hskip : st.skip_row = false)
    (hdd : ctx.date_of_disposal = none) :
    let sched := st.doc.depreciation_schedule
    let prev : ℚ := if 0 < n ∧ (n : Int) - 1 < (sched.length : Int) then
        ((sched.get? (n - 1).toNat).getD defaultRow).depreciation_amount
      else 0
    let da := get_depreciation_amount ctx.asset st.value_after_depreciation
      ctx.row n prev ctx.has_wdv_or_dd_non_yearly_pro_rata
      ctx.number_of_pending_depreciations
    let sd0 : Option Date := if ¬ ctx.has_pro_rata ∨
        (n < ctx.final_number_of_depreciations - 1 ∨
          ctx.final_number_of_depreciations = 2) then
        some (if ctx.should_get_last_day then
            get_last_day (add_months ctx.row.depreciation_start_date
              (n * ctx.row.frequency_of_depreciation))
          else add_months ctx.row.depreciation_start_date
            (n * ctx.row.frequency_of_depreciation))
      else st.schedule_date
    let fl := firstLastRowProRata ctx n st da sd0
    let a := fl.1
    a ≠ 0 →
    st.value_after_depreciation - fltp ctx.asset.precision a <
      ctx.row.expected_value_after_useful_life →
    ctx.row.expected_value_after_useful_life ≠ 0 →
    (makeDeprLoop ctx (fuel + 1) n st).skip_row = true ∧
    (makeDeprLoop ctx (fuel + 1) n st).doc.depreciation_schedule =
      st.doc.depreciation_schedule ++
        (if 0 < fltp ctx.asset.precision
            (a + (st.value_after_depreciation - fltp ctx.asset.precision a -
              ctx.row.expected_value_after_useful_life)) then
          [⟨fl.2.1.getD ctx.row.depreciation_start_date,
            a + (st.value_after_depreciation - fltp ctx.asset.precision a -
              ctx.row.expected_value_after_useful_life), 0, none⟩]
        else []) := by
  dsimp only
  intro ha hlt hEne
  simp only [makeDeprLoop]
  unfold makeDeprStep
  rw [if_neg (by simp [hskip])]
  dsimp only
  rw [hdd]
  dsimp only
  rw [if_neg ha]
  rw [if_pos ⟨hEne, Or.inr hlt⟩]
  dsimp only
  rw [makeDeprLoop_skip _ _ _ _ rfl]
  exact ⟨rfl, rows_add_row_ite _ _ _ _⟩

theorem makeDeprLoop_head (ctx : MakeDeprCtx) (fuel : Nat) (n : Int)
    (st : MakeDeprState) (r : DeprScheduleRow)
    (h : st.doc.depreciation_schedule.head? = some r) :
    (makeDeprLoop ctx fuel n st).doc.depreciation_schedule.head? = some r := by
  obtain ⟨t, ht, -⟩ := makeDeprLoop_rows ctx fuel n st
  rw [ht]
  cases hsched : st.doc.depreciation_schedule with
  | nil => rw [hsched] at h; cases h
  | cons a l => rw [hsched] at h; simpa using h

theorem makeDeprLoop_first_row (ctx : MakeDeprCtx) (fuel : Nat)
    (st : MakeDeprState)
    (hskip : st.skip_row = false)
    (hdd : ctx.date_of_disposal = none)
    (hrows : st.doc.depreciation_schedule = [])
    (hpro : ctx.has_pro_rata = true)
    (hwdv : ctx.has_wdv_or_dd_non_yearly_pro_rata = false)
    (hop : st.doc.opening_accumulated_depreciation ≠ 0)
    (hfin : 2 ≤ ctx.final_number_of_depreciations) :
    let a := get_depreciation_amount ctx.asset st.value_after_depreciation
      ctx.row 0 0 ctx.has_wdv_or_dd_non_yearly_pro_rata
      ctx.number_of_pending_depreciations
    0 < fltp ctx.asset.precision a →
    ¬ (ctx.row.expected_value_after_useful_life ≠ 0 ∧
      st.value_after_depreciation - fltp ctx.asset.precision a <
        ctx.row.expected_value_after_useful_life) →
    (makeDeprLoop ctx (fuel + 1) 0 st).doc.depreciation_schedule.head? =
      some ⟨if ctx.should_get_last_day then
          get_last_day (add_months ctx.row.depreciation_start_date
            (0 * ctx.row.frequency_of_depreciation))
        else add_months ctx.row.depreciation_start_date
          (0 * ctx.row.frequency_of_depreciation), a, 0, none⟩ := by
  dsimp only
  intro hpos htrig
  simp only [makeDeprLoop]
  unfold makeDeprStep
  rw [if_neg (by simp [hskip])]
  dsimp only
  rw [hdd]
  dsimp only
  have hprev : ¬ ((0 : Int) < 0 ∧ (0 : Int) - 1 <
      (st.doc.depreciation_schedule.length : Int)) := by simp
  simp only [if_neg hprev]
  have hsd : ¬ ctx.has_pro_rata = true ∨
      ((0 : Int) < ctx.final_number_of_depreciations - 1 ∨
        ctx.final_number_of_depreciations = 2) := Or.inr (Or.inl (by omega))
  simp only [if_pos hsd]
  rw [show firstLastRowProRata ctx 0 st
      (get_depreciation_amount ctx.asset st.value_after_depreciation ctx.row 0 0
        ctx.has_wdv_or_dd_non_yearly_pro_rata
        ctx.number_of_pending_depreciations)
      (some (if ctx.should_get_last_day then
          get_last_day (add_months ctx.row.depreciation_start_date
            (0 * ctx.row.frequency_of_depreciation))
        else add_months ctx.row.depreciation_start_date
          (0 * ctx.row.frequency_of_depreciation))) =
      (get_depreciation_amount ctx.asset st.value_after_depreciation ctx.row 0 0
        ctx.has_wdv_or_dd_non_yearly_pro_rata
        ctx.number_of_pending_depreciations,
        some (if ctx.should_get_last_day then
          get_last_day (add_months ctx.row.depreciation_start_date
            (0 * ctx.row.frequency_of_depreciation))
        else add_months ctx.row.depreciation_start_date
          (0 * ctx.row.frequency_of_depreciation)),
        st.asset_to_date) from by
    unfold firstLastRowProRata
    rw [if_neg (by simp [hop])]
    rw [if_neg (by simp [hwdv])]
    rw [if_neg (by
      rintro ⟨-, hc⟩
      omega)]]
  dsimp only
  rw [if_neg (fltp_ne_zero_of_pos _ hpos)]
  rw [if_neg (by
    rintro ⟨hE, hor⟩
    rcases hor with ⟨h0, -⟩ | hlt
    · omega
    · exact htrig ⟨hE, hlt⟩)]
  rw [if_pos hpos]
  dsimp only
  refine makeDeprLoop_head _ _ _ _ _ ?_
  simp [add_depr_schedule_row, hrows]

/-! ### Claim theorems -/

/-- Claim C6: for a Written Down Value / Double Declining Balance policy
with `frequency_of_depreciation` different from 12 (and dividing 12, so
that the Python float modulus is exact), the period amount equals
`depreciable_value * frequency * rate / 1200` exactly at period indices
that are multiples of `12 / frequency`, and every other period returns
the previous period's amount unchanged; with the non-yearly pro-rata
flag, the recomputation index is shifted by one (recompute when `index
mod (12/frequency) = 1`), index 0 being its own case (full annual
rate). -/
theorem C6_wdv_non_yearly_recompute (dv rate : ℚ) (freq idx : Int) (prev : ℚ)
    (hpos : 0 < freq) (hne : freq ≠ 12) (hdvd : freq ∣ 12) (hidx : 0 ≤ idx) :
    ((12 / freq : Int) ∣ idx →
      get_wdv_or_dd_depr_amount dv rate freq idx prev false =
        dv * (freq : ℚ) * (rate / 1200)) ∧
    (¬ ((12 / freq : Int) ∣ idx) →
      get_wdv_or_dd_depr_amount dv rate freq idx prev false = prev) ∧
    (get_wdv_or_dd_depr_amount dv rate freq 0 prev true = dv * (rate / 100)) ∧
    (idx ≠ 0 → idx % (12 / freq) = 1 →
      get_wdv_or_dd_depr_amount dv rate freq idx prev true =
        dv * (freq : ℚ) * (rate / 1200)) ∧
    (idx ≠ 0 → idx % (12 / freq) ≠ 1 →
      get_wdv_or_dd_depr_amount dv rate freq idx prev true = prev) := by
  have hk12 : freq * (12 / freq) = 12 := Int.mul_ediv_cancel' hdvd
  have hkpos : 0 < (12 / freq : Int) := by
    by_contra hcon
    push_neg at hcon
    nlinarith
  have hfq : ((12 : ℚ) / (freq : ℚ)) = ((12 / freq : Int) : ℚ) := by
    rw [div_eq_iff (by exact_mod_cast hpos.ne')]
    rw [mul_comm]
    exact_mod_cast hk12.symm
  have hq : qfmod (idx : ℚ) (12 / (freq : ℚ)) = ((idx % (12 / freq) : ℤ) : ℚ) := by
    rw [hfq]
    exact qfmod_intCast idx (12 / freq) hkpos
  refine ⟨?_, ?_, ?_, ?_, ?_⟩
  · intro hdv2
    unfold get_wdv_or_dd_depr_amount
    rw [if_neg hne, if_neg (by simp), if_pos (by
      rw [hq]
      exact_mod_cast Int.emod_eq_zero_of_dvd hdv2)]
  · intro hdv2
    unfold get_wdv_or_dd_depr_amount
    rw [if_neg hne, if_neg (by simp), if_neg (by
      rw [hq]
      intro hc
      exact hdv2 (Int.dvd_of_emod_eq_zero (by exact_mod_cast hc)))]
  · unfold get_wdv_or_dd_depr_amount
    rw [if_neg hne, if_pos (by simp), if_pos rfl]
  · intro h0 h1
    unfold get_wdv_or_dd_depr_amount
    rw [if_neg hne, if_pos (by simp), if_neg h0, if_pos (by
      rw [hq]
      exact_mod_cast h1)]
  · intro h0 h1
    unfold get_wdv_or_dd_depr_amount
    rw [if_neg hne, if_pos (by simp), if_neg h0, if_neg (by
      rw [hq]
      intro hc
      exact h1 (by exact_mod_cast hc))]

/-- Witness for C6: quarterly frequency (3 months), index 4 (a multiple of
`12/3 = 4`) recomputes `1200 * 3 * (10/1200) = 30`; index 5 with the
pro-rata variant recomputes as well (`5 % 4 = 1`). -/
theorem C6_wdv_non_yearly_recompute_witness :
    ((0 : ℤ) < 3 ∧ (3 : ℤ) ≠ 12 ∧ (3 : ℤ) ∣ 12 ∧ (0 : ℤ) ≤ 4) ∧
    get_wdv_or_dd_depr_amount 1200 10 3 4 7 false = 30 ∧
    get_wdv_or_dd_depr_amount 1200 10 3 5 7 false = 7 := by
  refine ⟨by decide, ?_, ?_⟩
  · rw [(C6_wdv_non_yearly_recompute 1200 10 3 4 7 (by decide) (by decide)
      (by decide) (by decide)).1 (by decide)]
    norm_num
  · exact (C6_wdv_non_yearly_recompute 1200 10 3 5 7 (by decide) (by decide)
      (by decide) (by decide)).2.1 (by decide)

/-- Claim C7 counterexample: neither configuration error is fatal on this
code.  A policy whose method is the unrecognized string "Banana" is
silently dispatched to the WDV/DDB branch of `get_depreciation_amount`
(here returning the WDV amount 200 = 20% of 1000, not an error), and
`make_depr_schedule` on an asset with no available-for-use date returns
the document and policy row untouched (no rows and no error), instead of
aborting with a fatal error as the claim states. -/
theorem C7_config_errors_cex :
    get_depreciation_amount
        ⟨1000, 0, 0, some ⟨2020, 1, 1⟩, ⟨1900, 1, 1⟩, 0, 2, ⟨false, false, false⟩⟩
        1000
        ⟨none, "Banana", 2, 12, 20, 0, false, ⟨2020, 12, 31⟩, 0⟩ 0 0 false 2 =
      200 ∧
    make_depr_schedule
        ⟨"ADS1", "A1", none, 0, 0, "Straight Line", 2, []⟩
        ⟨1000, 0, 0, none, ⟨1900, 1, 1⟩, 0, 2, ⟨false, false, false⟩⟩
        ⟨none, "Straight Line", 2, 12, 20, 0, false, ⟨2020, 12, 31⟩, 0⟩ none
        none =
      (⟨"ADS1", "A1", none, 0, 0, "Straight Line", 2, []⟩,
        ⟨none, "Straight Line", 2, 12, 20, 0, false, ⟨2020, 12, 31⟩, 0⟩) := by
  constructor
  · decide
  · rfl

/-- Claim C7 (amended): generation on an asset with no available-for-use
date returns the schedule untouched, with no rows produced and no error;
a policy carrying an unrecognized depreciation method is silently
dispatched to the WDV/DDB branch (with the policy's flat rate), not
rejected. -/
theorem C7_config_errors (doc : ADSDoc) (asset : Asset) (row : FinanceBook)
    (dd : Option Date) (v : Option ℚ) (dv : ℚ) (idx : Int) (prev : ℚ)
    (hw : Bool) (pend : Int)
    (hdate : asset.available_for_use_date = none)
    (hmethod : ¬ (row.depreciation_method = "Straight Line" ∨
      row.depreciation_method = "Manual")) :
    make_depr_schedule doc asset row dd v = (doc, row) ∧
    get_depreciation_amount asset dv row idx prev hw pend =
      get_wdv_or_dd_depr_amount dv row.rate_of_depreciation
        row.frequency_of_depreciation idx prev hw := by
  constructor
  · unfold make_depr_schedule
    rw [hdate]
  · unfold get_depreciation_amount
    rw [if_neg hmethod]
    rfl

/-- Witness for C7 (amended) at a concrete unknown-method policy and a
concrete asset with no available-for-use date. -/
theorem C7_config_errors_witness :
    make_depr_schedule
        ⟨"ADS1", "A1", none, 0, 0, "Straight Line", 2, []⟩
        ⟨1000, 0, 0, none, ⟨1900, 1, 1⟩, 0, 2, ⟨false, false, false⟩⟩
        ⟨none, "Banana", 2, 12, 20, 0, false, ⟨2020, 12, 31⟩, 0⟩ none none =
      (⟨"ADS1", "A1", none, 0, 0, "Straight Line", 2, []⟩,
        ⟨none, "Banana", 2, 12, 20, 0, false, ⟨2020, 12, 31⟩, 0⟩) := by
  exact (C7_config_errors _ _ _ none none 0 0 0 false 0 rfl (by decide)).1

/-- Claim C1 (amended): for a Straight Line / Manual schedule generated
from a draft asset with an available-for-use date and reconciled by
`set_accumulated_depreciation` with no disposal and no return, the sum of
the row amounts equals gross purchase amount − opening accumulated
depreciation − expected value after useful life, within one unit of the
configured currency precision (the reconciler folds the residual into the
last row). -/
theorem C1_sum_invariant (doc : ADSDoc) (asset : Asset) (row : FinanceBook)
    (hmethod : doc.depreciation_method = "Straight Line" ∨
      doc.depreciation_method = "Manual")
    (hdoc : asset.docstatus = 0)
    (hav : asset.available_for_use_date ≠ none)
    (hprec : doc.row_precision = asset.precision)
    (hne : (make_depr_schedule doc asset row none
      none).1.depreciation_schedule ≠ []) :
    |(((set_accumulated_depreciation
          (make_depr_schedule doc asset row none none).1 asset
          (make_depr_schedule doc asset row none none).2 none none
          false).depreciation_schedule.map
        (fun r => r.depreciation_amount)).sum) -
      (asset.gross_purchase_amount - asset.opening_accumulated_depreciation -
        row.expected_value_after_useful_life)| ≤ 1 / 10 ^ asset.precision := by
  have hsnd := make_depr_schedule_snd doc asset row none hav (by omega)
  obtain ⟨sch, hfst⟩ := make_depr_schedule_fst doc asset row none none
  rw [hfst] at hne
  rw [hfst, hsnd]
  unfold set_accumulated_depreciation
  dsimp only
  rw [setAccAux_amounts _ rfl]
  simp only [List.map_nil, List.nil_append]
  rw [setAccAmounts_sum
    ⟨asset, doc.opening_accumulated_depreciation, doc.row_precision,
      row.expected_value_after_useful_life, decide (True ∧ True),
      false,
      decide (doc.depreciation_method = "Straight Line" ∨
        doc.depreciation_method = "Manual"),
      sch.length⟩
    (decide_eq_true hmethod) rfl sch 0
    (asset.gross_purchase_amount - asset.opening_accumulated_depreciation)
    hne (by simp)]
  have harith :
      (sch.map (fun r => fltp doc.row_precision r.depreciation_amount)).sum +
          fltp doc.row_precision
            (asset.gross_purchase_amount -
              asset.opening_accumulated_depreciation -
              (sch.map
                (fun r => fltp doc.row_precision r.depreciation_amount)).sum -
              row.expected_value_after_useful_life) -
          (asset.gross_purchase_amount -
            asset.opening_accumulated_depreciation -
            row.expected_value_after_useful_life) =
        fltp doc.row_precision
            (asset.gross_purchase_amount -
              asset.opening_accumulated_depreciation -
              (sch.map
                (fun r => fltp doc.row_precision r.depreciation_amount)).sum -
              row.expected_value_after_useful_life) -
          (asset.gross_purchase_amount -
            asset.opening_accumulated_depreciation -
            (sch.map
              (fun r => fltp doc.row_precision r.depreciation_amount)).sum -
            row.expected_value_after_useful_life) := by
    ring
  rw [harith]
  have hstep := abs_fltp_sub_le doc.row_precision
    (asset.gross_purchase_amount - asset.opening_accumulated_depreciation -
      (sch.map (fun r => fltp doc.row_precision r.depreciation_amount)).sum -
      row.expected_value_after_useful_life)
  refine hstep.trans ?_
  rw [hprec]
  have hp : (0 : ℚ) < 10 ^ asset.precision := by positivity
  rw [div_le_div_iff_of_pos_right hp]
  norm_num

/-- Claim C1 counterexample: a Written Down Value schedule (rate 20%, two
yearly periods, zero expected value after useful life), generated with no
disposal/return and no early residual termination (the skip_row
adjustment is impossible here because `expected_value_after_useful_life`
is 0, a falsy guard), then reconciled by `set_accumulated_depreciation`:
the row amounts are [200, 160], whose sum 360 misses
`gross − opening − expected = 1000` by 640, far more than one unit
(0.01) of the configured precision. -/
theorem C1_sum_invariant_cex :
    ((set_accumulated_depreciation
        (make_depr_schedule c1_doc c1_asset c1_fb none none).1 c1_asset
        (make_depr_schedule c1_doc c1_asset c1_fb none none).2 none none
        false).depreciation_schedule.map (fun r => r.depreciation_amount)) =
      [200, 160] ∧
    ¬ |((200 : ℚ) + 160) -
        (c1_asset.gross_purchase_amount -
          c1_asset.opening_accumulated_depreciation -
          c1_fb.expected_value_after_useful_life)| ≤ 1 / 10 ^ 2 := by
  constructor
  · decide
  · decide

/-- Witness for C1 (amended): the Straight Line 100/3 schedule sums to
exactly 100 after reconciliation. -/
theorem C1_sum_invariant_witness :
    |(((set_accumulated_depreciation
          (make_depr_schedule c1w_doc c1w_asset c1w_fb none none).1 c1w_asset
          (make_depr_schedule c1w_doc c1w_asset c1w_fb none none).2 none none
          false).depreciation_schedule.map
        (fun r => r.depreciation_amount)).sum) -
      (c1w_asset.gross_purchase_amount -
        c1w_asset.opening_accumulated_depreciation -
        c1w_fb.expected_value_after_useful_life)| ≤
      1 / 10 ^ c1w_asset.precision :=
  C1_sum_invariant c1w_doc c1w_asset c1w_fb (Or.inl rfl) rfl (by decide) rfl
    (by decide)

/-- Claim C2 (amended): after `set_accumulated_depreciation` runs with no
row skipped (`ignore_booked_entry` not passed), and with a nonnegative
opening accumulated depreciation representable at the row precision and
nonnegative row amounts, every row's accumulated amount equals the
previous row's accumulated amount plus its own amount, and the first
row's accumulated amount equals the opening accumulated depreciation
plus its own amount — including when the decrease-in-asset-value
regeneration flag is set. -/
theorem C2_monotonic_accumulation (doc : ADSDoc) (asset : Asset)
    (row : FinanceBook) (dd ret : Option Date)
    (hop_nn : 0 ≤ doc.opening_accumulated_depreciation)
    (hop_fix : fltp doc.row_precision doc.opening_accumulated_depreciation =
      doc.opening_accumulated_depreciation)
    (hamts : ∀ r ∈ doc.depreciation_schedule, 0 ≤ r.depreciation_amount) :
    (∀ j (hj : j + 1 < (set_accumulated_depreciation doc asset row dd ret
        false).depreciation_schedule.length),
      (((set_accumulated_depreciation doc asset row dd ret
            false).depreciation_schedule).get
          ⟨j + 1, hj⟩).accumulated_depreciation_amount =
        (((set_accumulated_depreciation doc asset row dd ret
              false).depreciation_schedule).get
            ⟨j, by omega⟩).accumulated_depreciation_amount +
          (((set_accumulated_depreciation doc asset row dd ret
                false).depreciation_schedule).get
              ⟨j + 1, hj⟩).depreciation_amount) ∧
    (∀ (h0 : 0 < (set_accumulated_depreciation doc asset row dd ret
        false).depreciation_schedule.length),
      (((set_accumulated_depreciation doc asset row dd ret
            false).depreciation_schedule).get
          ⟨0, h0⟩).accumulated_depreciation_amount =
        doc.opening_accumulated_depreciation +
          (((set_accumulated_depreciation doc asset row dd ret
                false).depreciation_schedule).get
              ⟨0, h0⟩).depreciation_amount) := by
  have hQ := setAccAux_accs
    ⟨asset, doc.opening_accumulated_depreciation, doc.row_precision,
      row.expected_value_after_useful_life, decide (dd = none ∧ ret = none),
      false,
      decide (doc.depreciation_method = "Straight Line" ∨
        doc.depreciation_method = "Manual"),
      doc.depreciation_schedule.length⟩
    rfl hop_nn hop_fix doc.depreciation_schedule 0 none
    row.value_after_depreciation [] hamts rfl (by simp)
    (by intro j hj; simp at hj) (Or.inl ⟨rfl, rfl⟩)
  unfold set_accumulated_depreciation
  dsimp only
  constructor
  · intro j hj
    have h1 := hQ (j + 1) hj
    have h2 := hQ j (by omega)
    rw [h1, h2]
    rw [List.take_succ]
    rw [List.getElem?_eq_getElem hj]
    simp only [Option.toList_some, List.map_append, List.sum_append,
      List.map_cons, List.map_nil, List.sum_cons, List.sum_nil, add_zero,
      List.get_eq_getElem]
    ring
  · intro h0
    have h1 := hQ 0 h0
    rw [h1]
    rw [take_one_sum _ h0]

/-- Witness for C2 (amended): two Straight Line rows with opening
accumulated depreciation 5 — after reconciliation the second row's
accumulated amount equals the first row's plus its own amount. -/
theorem C2_monotonic_accumulation_witness :
    (((set_accumulated_depreciation c2w_doc c2w_asset c2w_fb none none
          false).depreciation_schedule).get
        ⟨1, by decide⟩).accumulated_depreciation_amount =
      (((set_accumulated_depreciation c2w_doc c2w_asset c2w_fb none none
            false).depreciation_schedule).get
          ⟨0, by decide⟩).accumulated_depreciation_amount +
        (((set_accumulated_depreciation c2w_doc c2w_asset c2w_fb none none
              false).depreciation_schedule).get
            ⟨1, by decide⟩).depreciation_amount :=
  (C2_monotonic_accumulation c2w_doc c2w_asset c2w_fb none none (by decide)
    (by decide) (by decide)).1 0 (by decide)

/-- Claim C2 counterexample: with `ignore_booked_entry` the booked first
row (stale accumulated total 10) is skipped, and the reconciler restarts
the running total at the opening accumulated depreciation (0), so the
second row's stored accumulated amount is 10 and not
`row[0].accumulated + row[1].amount = 20`. -/
theorem C2_monotonic_accumulation_cex :
    ((set_accumulated_depreciation c2_doc c2_asset c2_fb none none
        true).depreciation_schedule.map
      (fun r => (r.depreciation_amount, r.accumulated_depreciation_amount))) =
      [(10, 10), (10, 10)] ∧
    ¬ ((10 : ℚ) = 10 + 10) := by
  constructor
  · decide
  · decide

/-- Claim C3 (amended): when a schedule is regenerated
(`make_depr_schedule` followed by `set_accumulated_depreciation`) with
`ignore_booked_entry` passed to the reconciler, every surviving row that
carries a booking reference (journal entry) is a row of the original
schedule, with its date and amount unchanged.  (Without
`ignore_booked_entry` the reconciler's final-row adjustment can modify a
booked last row — see the counterexample.) -/
theorem C3_booked_row_immutability (doc : ADSDoc) (asset : Asset)
    (row : FinanceBook) (dd ret : Option Date) (vo : Option ℚ) :
    ∀ r ∈ (set_accumulated_depreciation
        (make_depr_schedule doc asset row dd vo).1 asset
        (make_depr_schedule doc asset row dd vo).2 dd ret
        true).depreciation_schedule,
      r.journal_entry.isSome = true → r ∈ doc.depreciation_schedule := by
  intro r hr hj
  have h1 := set_accumulated_depreciation_booked _ _ _ _ _ r hr hj
  rcases make_depr_schedule_rows doc asset row dd vo r h1 with h | h
  · exact h
  · rw [h] at hj
    simp at hj

/-- Witness for C3 (amended): the booked row of the witness schedule
survives the full regeneration pipeline unchanged. -/
theorem C3_booked_row_immutability_witness :
    c3w_row ∈ c3w_doc.depreciation_schedule :=
  C3_booked_row_immutability c3w_doc c3w_asset c3w_fb none none none c3w_row
    (by decide) (by decide)

/-- Claim C3 counterexample: a fully booked single-row Straight Line
schedule regenerated (make_depr_schedule appends nothing because the
depreciable value is 0) and reconciled without `ignore_booked_entry`:
the final-row adjustment of `set_accumulated_depreciation` rewrites the
booked row's amount from 10 to 0 — a row bearing a booking reference does
not keep its amount. -/
theorem C3_booked_row_immutability_cex :
    ((set_accumulated_depreciation
        (make_depr_schedule c3_doc c3_asset c3_fb none none).1 c3_asset
        (make_depr_schedule c3_doc c3_asset c3_fb none none).2 none none
        false).depreciation_schedule.map
      (fun r => (r.depreciation_amount, r.journal_entry))) =
      [(0, some "JE1")] ∧
    (c3_doc.depreciation_schedule.map
      (fun r => (r.depreciation_amount, r.journal_entry))) =
      [(10, some "JE1")] := by
  constructor
  · decide
  · decide

/-- Claim C4 counterexample: Straight Line over gross 101, three periods,
expected value after useful life 0.  The third period's amount (101/3)
pushes the running value below the expected value (to −0.01), yet —
because the in-loop guard first tests the truthiness of
`expected_value_after_useful_life` — the amount is not reduced, the row
is appended in full, `skip_row` is never set, and the running value ends
below the expected residual.  (`c4_ctx`/`c4_st` are exactly the loop
context and initial state that `make_depr_schedule` builds for these
inputs, as the first conjunct shows.) -/
theorem C4_residual_termination_cex :
    (make_depr_schedule c4_doc c4_asset c4_fb none none).1 =
      (makeDeprLoop c4_ctx 3 0 c4_st).doc ∧
    ((makeDeprLoop c4_ctx 3 0 c4_st).doc.depreciation_schedule.map
      (fun r => r.depreciation_amount)) = [101/3, 101/3, 101/3] ∧
    (makeDeprLoop c4_ctx 3 0 c4_st).value_after_depreciation = -(1/100) ∧
    (makeDeprLoop c4_ctx 3 0 c4_st).skip_row = false ∧
    (makeDeprLoop c4_ctx 3 0 c4_st).value_after_depreciation <
      c4_fb.expected_value_after_useful_life := by
  refine ⟨by decide, by decide, by decide, by decide, by decide⟩

/-- Claim C8 (amended): for a Straight Line / Manual schedule reconciled
with no disposal and no return date and with all stored amounts at the
row precision, exactly one row — the LAST row — has its amount adjusted,
by the rounded residual difference between the running value after
depreciation and the expected value after useful life; every other row's
amount is unchanged. -/
theorem C8_last_row_adjustment (doc : ADSDoc) (asset : Asset)
    (row : FinanceBook)
    (hmethod : doc.depreciation_method = "Straight Line" ∨
      doc.depreciation_method = "Manual")
    (hne : doc.depreciation_schedule ≠ [])
    (hfix : ∀ r ∈ doc.depreciation_schedule,
      fltp doc.row_precision r.depreciation_amount = r.depreciation_amount) :
    ((set_accumulated_depreciation doc asset row none none
        false).depreciation_schedule.map (fun r => r.depreciation_amount)) =
      ((doc.depreciation_schedule.map
          (fun r => r.depreciation_amount)).dropLast ++
        [(doc.depreciation_schedule.getLast?.getD
            defaultRow).depreciation_amount +
          fltp doc.row_precision
            (row.value_after_depreciation -
              ((doc.depreciation_schedule.map
                (fun r => r.depreciation_amount)).sum) -
              row.expected_value_after_useful_life)]) := by
  unfold set_accumulated_depreciation
  dsimp only
  rw [setAccAux_amounts _ rfl]
  simp only [List.map_nil, List.nil_append]
  rw [setAccAmounts_eq
    ⟨asset, doc.opening_accumulated_depreciation, doc.row_precision,
      row.expected_value_after_useful_life, decide (True ∧ True),
      false,
      decide (doc.depreciation_method = "Straight Line" ∨
        doc.depreciation_method = "Manual"),
      doc.depreciation_schedule.length⟩
    (decide_eq_true hmethod) rfl doc.depreciation_schedule 0 _ hne (by simp)]
  have hmap : doc.depreciation_schedule.map
      (fun r => fltp doc.row_precision r.depreciation_amount) =
      doc.depreciation_schedule.map (fun r => r.depreciation_amount) :=
    List.map_congr_left hfix
  rw [hmap]
  have hlastmem : doc.depreciation_schedule.getLast?.getD defaultRow ∈
      doc.depreciation_schedule := by
    rw [getLastD_eq_get _ hne]
    exact List.get_mem _ _ _
  rw [hfix _ hlastmem]

/-- Witness for C8 (amended): on the 33.33-row schedule, the reconciler
leaves the first two amounts unchanged and moves the last to 33.34. -/
theorem C8_last_row_adjustment_witness :
    ((set_accumulated_depreciation c8w_doc c8w_asset c8w_fb none none
        false).depreciation_schedule.map (fun r => r.depreciation_amount)) =
      [3333/100, 3333/100, 3334/100] := by
  rw [C8_last_row_adjustment c8w_doc c8w_asset c8w_fb (Or.inl rfl) (by decide)
    (by decide)]
  decide

/-- Claim C8 counterexample: three Straight Line rows of 33.33 against a
depreciable value of 100, reconciled with no disposal and no return.  The
residual difference is 0.01 ≠ 0 and it is absorbed by the LAST row
(33.33 → 33.34); the penultimate row is left unchanged — `i ==
max(straight_line_idx) - 1` with one-based `idx` against zero-based
`enumerate` selects the last row, not the penultimate one as the claim
states. -/
theorem C8_penultimate_adjustment_cex :
    ((set_accumulated_depreciation c8_doc c8_asset c8_fb none none
        false).depreciation_schedule.map (fun r => r.depreciation_amount)) =
      [3333/100, 3333/100, 3334/100] ∧
    (c8_doc.depreciation_schedule.map (fun r => r.depreciation_amount)) =
      [3333/100, 3333/100, 3333/100] ∧
    ¬ (c8_fb.value_after_depreciation -
        ((3333 : ℚ)/100 + 3333/100 + 3333/100) -
        c8_fb.expected_value_after_useful_life = 0) := by
  refine ⟨by decide, by decide, by decide⟩

/-- Claim C9: for a new schedule document (its name does not yet occur in
the table), the duplicate-schedule validation throws exactly when some
non-cancelled schedule (docstatus < 2) for the same asset and the same
finance-book filter already exists. -/
theorem C9_unique_schedule (db : List ADSDBRecord) (doc : ADSDoc)
    (hnew : ∀ r ∈ db, r.name ≠ doc.name) :
    validate_another_asset_depr_schedule_does_not_exist db doc = true ↔
      ∃ r ∈ db, adsFilterMatches doc.asset doc.finance_book r = true := by
  unfold validate_another_asset_depr_schedule_does_not_exist ads_db_exists
  cases hf : db.find? (adsFilterMatches doc.asset doc.finance_book) with
  | none =>
    simp only [hf, Option.map_none']
    constructor
    · intro h
      cases h
    · rintro ⟨r, hr, hp⟩
      have := List.find?_eq_none.mp hf r hr
      exact absurd hp this
  | some r =>
    have hmem := List.mem_of_find?_eq_some hf
    have hp := List.find?_some hf
    simp only [hf, Option.map_some']
    constructor
    · intro _
      exact ⟨r, hmem, hp⟩
    · intro _
      simpa [bne_iff_ne] using hnew r hmem

/-- Witness for C9: a draft schedule for the same asset and no finance
book already exists (docstatus 0 < 2), so validation of the new document
throws. -/
theorem C9_unique_schedule_witness :
    validate_another_asset_depr_schedule_does_not_exist
      [⟨"ADS-EXISTING", "A1", none, 0⟩]
      ⟨"ADS-NEW", "A1", none, 0, 0, "Straight Line", 2, []⟩ = true := by
  exact (C9_unique_schedule [⟨"ADS-EXISTING", "A1", none, 0⟩]
      ⟨"ADS-NEW", "A1", none, 0, 0, "Straight Line", 2, []⟩ (by decide)).mpr
    ⟨⟨"ADS-EXISTING", "A1", none, 0⟩, by decide, by decide⟩

/-- Claim C4 (amended): with a nonzero (truthy) expected value after
useful life, (a) as long as the loop has not set `skip_row`, the running
`value_after_depreciation` never goes below the expected residual, and
(b) any period whose computed (rounded) amount would push the running
value below the residual has its amount adjusted by exactly the shortfall
(landing the running value on the residual) and sets `skip_row`, so the
appended row is the last one produced by the loop. -/
theorem C4_residual_termination (ctx : MakeDeprCtx)
    (hE : ctx.row.expected_value_after_useful_life ≠ 0) :
    (∀ (fuel : Nat) (n : Int) (st : MakeDeprState),
      st.skip_row = false →
      ctx.row.expected_value_after_useful_life ≤
        st.value_after_depreciation →
      (makeDeprLoop ctx fuel n st).skip_row = false →
      ctx.row.expected_value_after_useful_life ≤
        (makeDeprLoop ctx fuel n st).value_after_depreciation) ∧
    (∀ (fuel : Nat) (n : Int) (st : MakeDeprState),
      st.skip_row = false →
      ctx.date_of_disposal = none →
      let sched := st.doc.depreciation_schedule
      let prev : ℚ := if 0 < n ∧ (n : Int) - 1 < (sched.length : Int) then
          ((sched.get? (n - 1).toNat).getD defaultRow).depreciation_amount
        else 0
      let da := get_depreciation_amount ctx.asset st.value_after_depreciation
        ctx.row n prev ctx.has_wdv_or_dd_non_yearly_pro_rata
        ctx.number_of_pending_depreciations
      let sd0 : Option Date := if ¬ ctx.has_pro_rata ∨
          (n < ctx.final_number_of_depreciations - 1 ∨
            ctx.final_number_of_depreciations = 2) then
          some (if ctx.should_get_last_day then
              get_last_day (add_months ctx.row.depreciation_start_date
                (n * ctx.row.frequency_of_depreciation))
            else add_months ctx.row.depreciation_start_date
              (n * ctx.row.frequency_of_depreciation))
        else st.schedule_date
      let fl := firstLastRowProRata ctx n st da sd0
      let a := fl.1
      a ≠ 0 →
      st.value_after_depreciation - fltp ctx.asset.precision a <
        ctx.row.expected_value_after_useful_life →
      (makeDeprLoop ctx (fuel + 1) n st).skip_row = true ∧
      (makeDeprLoop ctx (fuel + 1) n st).doc.depreciation_schedule =
        st.doc.depreciation_schedule ++
          (if 0 < fltp ctx.asset.precision
              (a + (st.value_after_depreciation -
                fltp ctx.asset.precision a -
                ctx.row.expected_value_after_useful_life)) then
            [⟨fl.2.1.getD ctx.row.depreciation_start_date,
              a + (st.value_after_depreciation -
                fltp ctx.asset.precision a -
                ctx.row.expected_value_after_useful_life), 0, none⟩]
          else [])) := by
  constructor
  · intro fuel n st h1 h2 h3
    exact makeDeprLoop_value ctx fuel n st hE h2 h1 h3
  · intro fuel n st h1 h2
    dsimp only
    intro ha hlt
    exact makeDeprLoop_trigger ctx fuel n st h1 h2 ha hlt hE

/-- Witness for C4 (amended): with expected value 1 over value 100 the
running value stays at or above 1 after two un-skipped periods; with
expected value 50 over value 60 the very first period dips below the
residual, is adjusted and sets `skip_row`. -/
theorem C4_residual_termination_witness :
    (1 : ℚ) ≤ (makeDeprLoop c4wa_ctx 2 0 c4wa_st).value_after_depreciation ∧
    (makeDeprLoop c4wb_ctx 1 0 c4wb_st).skip_row = true := by
  constructor
  · exact (C4_residual_termination c4wa_ctx (by decide)).1 2 0 c4wa_st
      (by decide) (by decide) (by decide)
  · exact ((C4_residual_termination c4wb_ctx (by decide)).2 0 0 c4wb_st
      (by decide) rfl (by decide) (by decide)).1

/-- Claim C5: when a disposal date is supplied and at least one period
remains, the generation loop appends exactly one new row (and only if its
amount is positive): its schedule date is the disposal date and its
amount is the pro-rata share from the last existing row's schedule date
(or, with no existing rows, from the available-for-use date shifted by
booked periods times the frequency) to the disposal date; the loop then
breaks, so no further rows are generated regardless of the remaining
nominal periods. -/
theorem C5_disposal_truncation (doc : ADSDoc) (asset : Asset)
    (row : FinanceBook) (start : Nat) (dd : Date) (vopt : Option ℚ) :
    let v0 := vopt.getD 0
    let v := if v0 = 0 then
        get_value_after_depreciation_for_making_schedule asset row
      else v0
    let row2 := { row with value_after_depreciation := v }
    let final0 := row2.total_number_of_depreciations -
      doc.number_of_depreciations_booked
    let has_pro_rata := check_is_pro_rata asset row2 false
    let final := if has_pro_rata then final0 + 1 else final0
    let has_wdv := if (row2.depreciation_method = "Written Down Value" ∨
        row2.depreciation_method = "Double Declining Balance") ∧
        row2.frequency_of_depreciation ≠ 12 then
        check_is_pro_rata asset row2 true
      else false
    let prev : ℚ := if 0 < (start : Int) ∧ ((start : Int) : Int) - 1 <
        (doc.depreciation_schedule.length : Int) then
        ((doc.depreciation_schedule.get? ((start : Int) - 1).toNat).getD
          defaultRow).depreciation_amount
      else 0
    let amount := get_depreciation_amount asset v row2 (start : Int) prev
      has_wdv (final - (start : Int))
    let from_date := match doc.depreciation_schedule.getLast? with
      | some last => last.schedule_date
      | none => add_months asset.availDate
          (asset.number_of_depreciations_booked *
            row2.frequency_of_depreciation)
    let amt := (get_pro_rata_amt row2 amount from_date dd false).1
    0 < (final - (start : Int)).toNat →
    (make_depr_schedule_inner doc asset row start (some dd)
        vopt).1.depreciation_schedule =
      doc.depreciation_schedule ++
        (if 0 < amt then [⟨dd, amt, 0, none⟩] else []) ∧
    (make_depr_schedule_inner doc asset row start (some dd) vopt).2 =
      row2 := by
  dsimp only
  intro hfuel
  obtain ⟨k, hk⟩ := Nat.exists_eq_succ_of_ne_zero (Nat.pos_iff_ne_zero.mp hfuel)
  constructor
  · unfold make_depr_schedule_inner
    dsimp only
    rw [hk]
    exact makeDeprLoop_disposal _ k _ _ dd rfl rfl
  · rfl

/-- Witness for C5: Straight Line over five yearly periods starting
2020-12-31, disposed on 2021-01-10, ten days into the second period: the
single appended row carries the disposal date and the pro-rata amount
200 · 375/366 = 12500/61 ≈ 204.92 for the 375 days from the adjusted
available-for-use date 2020-01-01 to the disposal date. -/
theorem C5_disposal_truncation_witness :
    (make_depr_schedule_inner c5_doc c5_asset c5_fb 0 (some ⟨2021, 1, 10⟩)
        none).1.depreciation_schedule =
      [⟨⟨2021, 1, 10⟩, 12500/61, 0, none⟩] := by
  have h := C5_disposal_truncation c5_doc c5_asset c5_fb 0 ⟨2021, 1, 10⟩ none
    (by decide)
  exact h.1.trans (by decide)

/-- Claim C10: with a detected partial first period (`has_pro_rata`) but
a nonzero opening accumulated depreciation, outside the WDV/DDB
non-yearly pro-rata case and starting from an empty schedule, period 0
receives the full unprorated period amount — the first-row pro-rata
reduction is skipped because the first branch of the chain also requires
a zero opening accumulated depreciation. -/
theorem C10_first_row_full_amount (doc : ADSDoc) (asset : Asset)
    (row : FinanceBook) (vopt : Option ℚ) :
    let v0 := vopt.getD 0
    let v := if v0 = 0 then
        get_value_after_depreciation_for_making_schedule asset row
      else v0
    let row2 := { row with value_after_depreciation := v }
    let final0 := row2.total_number_of_depreciations -
      doc.number_of_depreciations_booked
    let has_pro_rata := check_is_pro_rata asset row2 false
    let final := if has_pro_rata then final0 + 1 else final0
    let has_wdv := if (row2.depreciation_method = "Written Down Value" ∨
        row2.depreciation_method = "Double Declining Balance") ∧
        row2.frequency_of_depreciation ≠ 12 then
        check_is_pro_rata asset row2 true
      else false
    let a := get_depreciation_amount asset v row2 0 0 has_wdv
      (final - ((0 : Nat) : Int))
    doc.depreciation_schedule = [] →
    has_pro_rata = true →
    has_wdv = false →
    doc.opening_accumulated_depreciation ≠ 0 →
    2 ≤ final →
    0 < (final - ((0 : Nat) : Int)).toNat →
    0 < fltp asset.precision a →
    ¬ (row2.expected_value_after_useful_life ≠ 0 ∧
      v - fltp asset.precision a < row2.expected_value_after_useful_life) →
    (make_depr_schedule_inner doc asset row 0 none
        vopt).1.depreciation_schedule.head? =
      some ⟨if is_last_day_of_the_month row2.depreciation_start_date then
          get_last_day (add_months row2.depreciation_start_date
            (0 * row2.frequency_of_depreciation))
        else add_months row2.depreciation_start_date
          (0 * row2.frequency_of_depreciation), a, 0, none⟩ := by
  dsimp only
  intro hrows hpro hwdv hop hfin hfuel hpos htrig
  obtain ⟨k, hk⟩ := Nat.exists_eq_succ_of_ne_zero (Nat.pos_iff_ne_zero.mp hfuel)
  unfold make_depr_schedule_inner
  dsimp only
  rw [hk]
  exact makeDeprLoop_first_row _ k _ rfl rfl hrows hpro hwdv hop hfin hpos
    htrig

/-- Witness for C10: available for use 2020-06-15 (partial first period,
`has_pro_rata`), opening accumulated depreciation 10, Straight Line over
four yearly periods on a depreciable value of 100: the first generated
row carries the full unprorated amount 25, not a half-year share. -/
theorem C10_first_row_full_amount_witness :
    (make_depr_schedule_inner c10_doc c10_asset c10_fb 0 none
        none).1.depreciation_schedule.head? =
      some ⟨⟨2020, 12, 31⟩, 25, 0, none⟩ := by
  have h := C10_first_row_full_amount c10_doc c10_asset c10_fb none
    (by decide) (by decide) (by decide) (by decide) (by decide) (by decide)
    (by decide) (by decide)
  exact h.trans (by decide)

end AssetDepr
